import Mathlib

/-!
# Verification of the `wirklich` browser pool scheduler

A shallow embedding of the scheduler/pool core of `src/wirklich.js`:
the priority queue (lines 12-43), the browser roster with launch and
crash-driven removal (`_launchBrowser`, `_removeBrowserFromPool`,
lines 70-175), the scheduler loop (`_processQueue`, lines 188-275),
enqueue (`queueTaskWithRequirements`, lines 302-337), kill
(`killBrowser`, lines 895-946), shutdown (lines 948-979) and stats
(lines 981-997).

JavaScript runs single-threaded: a synchronous block of code runs
atomically, and suspension happens only at `await` points and when
promise handlers / timer callbacks / event handlers fire.  The pool is
therefore embedded as a transition system: each `Event` is one such
atomic block (an enqueue call, a `chromium.launch` settling, the
`Promise.race` of one dispatched task settling together with its
`.finally` handler, a browser transport dropping, its `disconnected`
handler firing, a `killBrowser` call, the pieces of `shutdown`).
Microtasks attached to one settlement (`.then`/`.catch`/`.finally` and
the code they run) drain before the next macrotask, so they are part
of the same atomic step.

The per-dispatch timeout race (lines 209-246) is additionally modelled
on its own, promise by promise, as `runnerStep` further below.
-/

inductive BType where
  | default
  | adblock
deriving DecidableEq

/-- Pool configuration, fixed at construction (`getBrowserPool`
parameters, lines 45-53).  `adblockExtensionPath` is a string option in
the source; only its presence is ever branched on, so it is embedded as
the flag `hasAdblockPath`. -/
structure Config where
  pool_size_default : Nat
  pool_size_adblock : Nat
  hasAdblockPath : Bool
  maxPagesPerBrowser : Nat
deriving DecidableEq

/-- The configured cap of a capability class (`pool_size_default` /
`pool_size_adblock`, used at lines 128-131, 254-255, 911-912). -/
def Config.cap (c : Config) : BType → Nat
  | .default => c.pool_size_default
  | .adblock => c.pool_size_adblock

/-- One entry of the pending task queue (`PriorityQueue.enqueue` pushes
`{ task, priority, requirements, resolve, reject, id }`, line 20).  The
opaque task function and the two continuations carry no information the
scheduler ever branches on, so only `id`, `priority` and the
`use_adblock` requirement are kept. -/
structure QItem where
  id : Nat
  priority : Int
  useAdblock : Bool
deriving DecidableEq

/-- The capability class a queued task requires
(`requirements.use_adblock ? "adblock" : "default"`, lines 178, 248-250). -/
def requiredBType (useAdblock : Bool) : BType :=
  if useAdblock then .adblock else .default

/-- One roster entry (`browserState`, lines 104-110).  `connected`
embeds `browser.isConnected()`: it turns false when the underlying
transport dies and before the `disconnected` handler has run. -/
structure BrowserSt where
  id : Nat
  type : BType
  busy : Bool
  pagesOpen : Nat
  connected : Bool
deriving DecidableEq

/-- A launch that has been started (`_launchBrowser` suspended at
`await chromium.launch(...)`, line 101) and has not settled yet.
`retrigger` records whether a `_processQueue()` is chained on its
successful settlement: true for the on-demand launch
(`.then(() => _processQueue())`, line 262) and for the kill-path launch
(`await _launchBrowser(...); _processQueue()`, lines 919-920), false
for the crash replenishment (`_launchBrowser(...).catch(...)` with no
`then`, line 133). -/
structure PendingLaunch where
  lid : Nat
  type : BType
  retrigger : Bool
deriving DecidableEq

/-- A dispatched task whose `Promise.race` has not settled yet:
the span from lines 202-210 to the `.finally` at line 239. -/
structure Dispatch where
  taskId : Nat
  browserId : Nat
deriving DecidableEq

/-- How the race of one dispatched task settles: the task function
resolves first, the task function rejects first, or the timeout timer
fires first (lines 226-238). -/
inductive RaceResult where
  | success
  | failure
  | timeout
deriving DecidableEq

/-- How a caller's promise was settled: by the race of its dispatch, or
rejected with the cancellation error of the shutdown drain
(lines 952-957). -/
inductive Settlement where
  | raced (r : RaceResult)
  | cancelled
deriving DecidableEq

/-- The mutable state owned by `getBrowserPool`'s closure: `browsers`,
`taskQueue` (with its `taskIdCounter`), `browserIdCounter`,
`shuttingDown` (lines 65-68), plus bookkeeping for in-flight
asynchronous operations: `pendingLaunches` (launches started, not
settled), `dispatches` (races not settled), `executions` (task function
invocations started and not finished - a timeout settles the race but
the execution keeps running, line 226 and spec section 4.4), `ghosts`
(browser objects removed from the roster by `killBrowser` whose
`disconnected` handler has not fired yet), `pendingCloses` (the
`browsersToClose` snapshot of `shutdown`, line 959, not yet settled),
`closedLog` (ids whose shutdown close attempt has settled),
`settled` (the log of caller-promise settlements), `launchFailures`
(how many launches have failed) and `shutdownDone` (whether the
`shutdown()` promise has resolved). -/
structure PoolState where
  cfg : Config
  browsers : List BrowserSt
  queue : List QItem
  taskIdCounter : Nat
  browserIdCounter : Nat
  launchIdCounter : Nat
  pendingLaunches : List PendingLaunch
  dispatches : List Dispatch
  executions : List Dispatch
  ghosts : List (Nat × BType)
  shuttingDown : Bool
  pendingCloses : List Nat
  closedLog : List Nat
  settled : List (Nat × Settlement)
  launchFailures : Nat
  shutdownDone : Bool
deriving DecidableEq

/-- `browsers.filter((b) => b.type === t).length` (lines 125-127,
251-253, 908-910). -/
def countType (bs : List BrowserSt) (t : BType) : Nat :=
  (bs.filter (fun b => b.type == t)).length

/-- `_findSuitableBrowser` (lines 177-186): the first roster entry that
is not busy, below the per-browser page limit, of the required type and
connected. -/
def findSuitableBrowser (s : PoolState) (useAdblock : Bool) : Option BrowserSt :=
  s.browsers.find? (fun b =>
    !b.busy && decide (b.pagesOpen < s.cfg.maxPagesPerBrowser) &&
      b.type == requiredBType useAdblock && b.connected)

/-- Mutate the roster entry with the given id in place (the source
mutates the found `browserState` object directly). -/
def updateBrowser (bs : List BrowserSt) (bid : Nat) (f : BrowserSt → BrowserSt) :
    List BrowserSt :=
  bs.map (fun b => if b.id == bid then f b else b)

/-- `_removeBrowserFromPool` roster effect (lines 157-164): drop the
entry with the given id (`findIndex` by id then `splice`; roster ids
are unique, and `filter` removes exactly that entry). -/
def removeBrowser (bs : List BrowserSt) (bid : Nat) : List BrowserSt :=
  bs.filter (fun b => !(b.id == bid))

/-- One step of the stable sort the queue performs.  `Array.prototype.sort`
with comparator `(a, b) => b.priority - a.priority` (line 21) is
required stable by the language (ES2019), and the result of a stable
sort under a total preorder is unique, so this insertion-based stable
sort computes the same list. -/
def insertDesc (x : QItem) : List QItem → List QItem
  | [] => [x]
  | y :: ys => if x.priority < y.priority then y :: insertDesc x ys else x :: y :: ys

/-- Stable sort by descending priority, ties kept in input order
(`this.items.sort((a, b) => b.priority - a.priority)`, line 21). -/
def jsSortDesc (l : List QItem) : List QItem :=
  l.foldr insertDesc []

/-- `PriorityQueue.enqueue` (lines 18-23): push the new item, then
re-sort by descending priority with the stable sort. -/
def pqEnqueue (items : List QItem) (it : QItem) : List QItem :=
  jsSortDesc (items ++ [it])

/-- The dispatch half of a `_processQueue` pass (lines 198-210): pop
the head, mark the chosen browser busy, bump its page counter, and
start the race (recorded as a live `Dispatch` and a live execution). -/
def dispatchTo (s : PoolState) (it : QItem) (b : BrowserSt) : PoolState :=
  { s with
    queue := s.queue.tail
    browsers := updateBrowser s.browsers b.id
      (fun x => { x with busy := true, pagesOpen := x.pagesOpen + 1 })
    dispatches := s.dispatches ++ [⟨it.id, b.id⟩]
    executions := s.executions ++ [⟨it.id, b.id⟩] }

/-- `_processQueue` (lines 188-275): one synchronous scheduler pass
(its body contains no `await`).  Return if shutting down or the queue
is empty; otherwise peek the head; dispatch to a suitable browser if
one exists; otherwise start one more launch of the required class if
its live count is under the cap (the launch is asynchronous - only a
`PendingLaunch` is created here). -/
def processQueue (s : PoolState) : PoolState :=
  if s.shuttingDown then s else
  match s.queue with
  | [] => s
  | it :: _ =>
    match findSuitableBrowser s it.useAdblock with
    | some b => dispatchTo s it b
    | none =>
      let t := requiredBType it.useAdblock
      if countType s.browsers t < s.cfg.cap t then
        { s with
          pendingLaunches := s.pendingLaunches ++ [⟨s.launchIdCounter, t, true⟩]
          launchIdCounter := s.launchIdCounter + 1 }
      else s

/-- The rejection cases of `queueTaskWithRequirements` (lines 303-322),
in source order. -/
inductive EnqueueError where
  | shuttingDown
  | notAFunction
  | adblockNoPath
  | adblockZero
deriving DecidableEq

/-- The guard chain of `queueTaskWithRequirements` (lines 303-322):
reject if shutting down, if the task is not a function, if adblock is
required but no extension path is configured, or if adblock is required
but `pool_size_adblock` is 0. -/
def enqueueGuard (s : PoolState) (isFunc useAdblock : Bool) : Option EnqueueError :=
  if s.shuttingDown then some .shuttingDown
  else if !isFunc then some .notAFunction
  else if useAdblock && !s.cfg.hasAdblockPath then some .adblockNoPath
  else if useAdblock && decide (s.cfg.pool_size_adblock = 0) then some .adblockZero
  else none

/-- `queueTaskWithRequirements` (lines 302-337): on a guard hit, return
an already-rejected promise without touching the queue; otherwise
enqueue (fresh id, stable re-sort) and run a scheduler pass. -/
def queueTaskWithRequirements (s : PoolState) (isFunc useAdblock : Bool)
    (priority : Int) : Except EnqueueError PoolState :=
  match enqueueGuard s isFunc useAdblock with
  | some e => .error e
  | none =>
    .ok (processQueue
      { s with
        queue := pqEnqueue s.queue ⟨s.taskIdCounter, priority, useAdblock⟩
        taskIdCounter := s.taskIdCounter + 1 })

/-- `_launchBrowser` chooses the effective class (lines 74-98): a
requested adblock browser falls back to a default one when no
`adblockExtensionPath` is configured. -/
def effectiveLaunchType (c : Config) (t : BType) : BType :=
  if t == .adblock && !c.hasAdblockPath then .default else t

/-- The `.finally` handler of a settled race together with the
settlement itself (lines 226-246): record the caller's settlement, drop
the live dispatch, keep the execution alive exactly when the race ended
by timeout (the execution is not cancelled, line 226 of the race /
spec 4.4), decrement the browser's page counter and clear its busy
flag.  `_processQueue()` is invoked afterwards by the step relation. -/
def settleRelease (s : PoolState) (tid : Nat) (k : RaceResult) : PoolState :=
  match s.dispatches.find? (fun d => d.taskId == tid) with
  | none => s
  | some d =>
    { s with
      dispatches := s.dispatches.filter (fun d' => !(d'.taskId == tid))
      executions :=
        if k == .timeout then s.executions
        else s.executions.filter (fun d' => !(d'.taskId == tid))
      settled := s.settled ++ [(tid, .raced k)]
      browsers := updateBrowser s.browsers d.browserId
        (fun x => { x with pagesOpen := x.pagesOpen - 1, busy := false }) }

/-- The `disconnected` handler of a roster browser (lines 112-142):
remove it from the roster; unless shutting down, start a replenishment
launch if the class is still under its cap, then run a scheduler
pass. -/
def disconnectHandler (s : PoolState) (b : BrowserSt) : PoolState :=
  let s1 := { s with browsers := removeBrowser s.browsers b.id }
  if s1.shuttingDown then s1 else
  let s2 :=
    if countType s1.browsers b.type < s1.cfg.cap b.type then
      { s1 with
        pendingLaunches := s1.pendingLaunches ++ [⟨s1.launchIdCounter, b.type, false⟩]
        launchIdCounter := s1.launchIdCounter + 1 }
    else s1
  processQueue s2

/-- The atomic blocks of the event loop that touch the pool state. -/
inductive Event where
  /-- A caller invokes `queueTaskWithRequirements` (lines 302-337). -/
  | enqueue (isFunc useAdblock : Bool) (priority : Int)
  /-- A pending `chromium.launch` settles: on success the continuation of
  `_launchBrowser` (lines 101-145) registers the new browser, and the
  on-demand/kill chain runs `_processQueue` (lines 262, 920); on failure
  only the `catch` logging runs (lines 263-268, 133-138, 921-926). -/
  | launchSettles (lid : Nat) (ok : Bool)
  /-- The race of a dispatched task settles (success, failure or
  timeout) and its `.finally` releases the browser and re-runs the
  scheduler loop (lines 226-246). -/
  | raceSettles (taskId : Nat) (k : RaceResult)
  /-- The execution of a task whose race already timed out finishes in
  the background; its late result is discarded (the race is already
  settled) and nothing in the pool changes. -/
  | lateCompletes (taskId : Nat)
  /-- The transport of a roster browser dies (crash): `isConnected()`
  becomes false; the `disconnected` event is delivered later. -/
  | drop (browserId : Nat)
  /-- The `disconnected` handler fires for a roster browser
  (lines 112-142). -/
  | disconnectFires (browserId : Nat)
  /-- A caller invokes `killBrowser` on a roster browser
  (lines 895-946): remove it (its `disconnected` handler will still
  fire later - it becomes a ghost), and if replenishing and not
  shutting down and under cap, start a replacement launch whose
  success chains `_processQueue` (lines 914-926). -/
  | killStart (browserId : Nat) (replenish : Bool)
  /-- The `disconnected` handler fires for a browser already removed
  from the roster by `killBrowser` (lines 112-142 with the roster
  removal a no-op): unless shutting down it may still start a
  replenishment launch, then runs a scheduler pass. -/
  | ghostFires (browserId : Nat)
  /-- `shutdown()` begins (lines 948-959): set the gate, reject every
  still-queued task with the cancellation error, snapshot the roster
  and start closing every browser in it. -/
  | shutdownStart
  /-- One shutdown close attempt settles (lines 960-973): on success
  the browser's `disconnected` handler removes it from the roster; on
  failure the `catch` removes it explicitly.  Either way it leaves the
  roster. -/
  | closeSettles (browserId : Nat) (ok : Bool)
  /-- `Promise.all(closePromises)` and the trailing timer resolve and
  `shutdown()` returns (lines 975-978). -/
  | shutdownResolve

/-- The step relation: `none` when the event's precondition does not
hold in this state (the event cannot occur). -/
def step (s : PoolState) : Event → Option PoolState
  | .enqueue isFunc useAdblock priority =>
    match queueTaskWithRequirements s isFunc useAdblock priority with
    | .error _ => some s
    | .ok s' => some s'
  | .launchSettles lid ok =>
    match s.pendingLaunches.find? (fun pl => pl.lid == lid) with
    | none => none
    | some pl =>
      let s1 := { s with pendingLaunches :=
        s.pendingLaunches.filter (fun pl' => !(pl'.lid == lid)) }
      if ok then
        let b : BrowserSt :=
          ⟨s1.browserIdCounter, effectiveLaunchType s1.cfg pl.type, false, 0, true⟩
        let s2 := { s1 with
          browsers := s1.browsers ++ [b]
          browserIdCounter := s1.browserIdCounter + 1 }
        some (if pl.retrigger then processQueue s2 else s2)
      else
        some { s1 with launchFailures := s1.launchFailures + 1 }
  | .raceSettles tid k =>
    match s.dispatches.find? (fun d => d.taskId == tid) with
    | none => none
    | some _ => some (processQueue (settleRelease s tid k))
  | .lateCompletes tid =>
    match s.executions.find? (fun d => d.taskId == tid) with
    | none => none
    | some _ =>
      if (s.dispatches.find? (fun d => d.taskId == tid)).isSome then none
      else some { s with
        executions := s.executions.filter (fun d' => !(d'.taskId == tid)) }
  | .drop bid =>
    match s.browsers.find? (fun b => b.id == bid) with
    | none => none
    | some b =>
      if b.connected then
        some { s with browsers :=
          updateBrowser s.browsers bid (fun x => { x with connected := false }) }
      else none
  | .disconnectFires bid =>
    match s.browsers.find? (fun b => b.id == bid) with
    | none => none
    | some b => if b.connected then none else some (disconnectHandler s b)
  | .killStart bid replenish =>
    match s.browsers.find? (fun b => b.id == bid) with
    | none => none
    | some b =>
      let s1 := { s with
        browsers := removeBrowser s.browsers bid
        ghosts := s.ghosts ++ [(b.id, b.type)] }
      if replenish && !s1.shuttingDown &&
          decide (countType s1.browsers b.type < s1.cfg.cap b.type) then
        some { s1 with
          pendingLaunches := s1.pendingLaunches ++ [⟨s1.launchIdCounter, b.type, true⟩]
          launchIdCounter := s1.launchIdCounter + 1 }
      else some s1
  | .ghostFires bid =>
    match s.ghosts.find? (fun g => g.1 == bid) with
    | none => none
    | some g =>
      let s1 := { s with ghosts := s.ghosts.filter (fun g' => !(g'.1 == bid)) }
      if s1.shuttingDown then some s1 else
      let s2 :=
        if countType s1.browsers g.2 < s1.cfg.cap g.2 then
          { s1 with
            pendingLaunches := s1.pendingLaunches ++ [⟨s1.launchIdCounter, g.2, false⟩]
            launchIdCounter := s1.launchIdCounter + 1 }
        else s1
      some (processQueue s2)
  | .shutdownStart =>
    if s.shuttingDown then none else
    some { s with
      shuttingDown := true
      queue := []
      settled := s.settled ++ s.queue.map (fun it => (it.id, Settlement.cancelled))
      pendingCloses := s.browsers.map (fun b => b.id) }
  | .closeSettles bid _ok =>
    if bid ∈ s.pendingCloses then
      some { s with
        pendingCloses := s.pendingCloses.erase bid
        closedLog := s.closedLog ++ [bid]
        browsers := removeBrowser s.browsers bid }
    else none
  | .shutdownResolve =>
    if s.shuttingDown && s.pendingCloses.isEmpty && !s.shutdownDone then
      some { s with shutdownDone := true }
    else none

/-- Run a list of events from a state. -/
def run (s : PoolState) : List Event → Option PoolState
  | [] => some s
  | e :: evs =>
    match step s e with
    | none => none
    | some s' => run s' evs

/-- The state of the pool at the moment `getBrowserPool` has started
its warm-up launches and suspended at `await Promise.all(...)`
(lines 277-288): empty roster and queue, one pending launch per
configured warm-up slot (`pool_size_default` default launches, and
`pool_size_adblock` adblock launches when an extension path is
configured, lines 278-285), none of them chaining a scheduler pass. -/
def poolInit (cfg : Config) : PoolState :=
  let warmN := cfg.pool_size_default +
    (if 0 < cfg.pool_size_adblock && cfg.hasAdblockPath then cfg.pool_size_adblock else 0)
  { cfg := cfg
    browsers := []
    queue := []
    taskIdCounter := 0
    browserIdCounter := 0
    launchIdCounter := warmN
    pendingLaunches := (List.range warmN).map (fun i =>
      ⟨i, if i < cfg.pool_size_default then .default else .adblock, false⟩)
    dispatches := []
    executions := []
    ghosts := []
    shuttingDown := false
    pendingCloses := []
    closedLog := []
    settled := []
    launchFailures := 0
    shutdownDone := false }

/-- A pool state reachable from construction by some interleaving of
events. -/
def Reachable (cfg : Config) (s : PoolState) : Prop :=
  ∃ evs, run (poolInit cfg) evs = some s

/-- The fields of `getStats()` the scheduler computes from its own
state (lines 981-997; the `config` echo carries no state). -/
structure Stats where
  totalBrowsers : Nat
  defaultBrowsers : Nat
  adblockBrowsers : Nat
  busyBrowsers : Nat
  idleBrowsers : Nat
  queuedTasks : Nat
deriving DecidableEq

/-- `getStats` (lines 981-997). -/
def getStats (s : PoolState) : Stats :=
  { totalBrowsers := s.browsers.length
    defaultBrowsers := (s.browsers.filter (fun b => b.type == BType.default)).length
    adblockBrowsers := (s.browsers.filter (fun b => b.type == BType.adblock)).length
    busyBrowsers := (s.browsers.filter (fun b => b.busy)).length
    idleBrowsers := (s.browsers.filter (fun b => !b.busy)).length
    queuedTasks := s.queue.length }

/-- The strict order the queue maintains: higher priority first, and
among equal priorities the earlier-enqueued task (smaller id) first. -/
def qLt (a b : QItem) : Prop :=
  b.priority < a.priority ∨ (a.priority = b.priority ∧ a.id < b.id)

instance (a b : QItem) : Decidable (qLt a b) := by
  unfold qLt; infer_instance

/-- How many live dispatches currently hold the browser with the given
id (each dispatch incremented its `pagesOpen` and has not yet run its
`.finally`). -/
def dispatchCount (ds : List Dispatch) (bid : Nat) : Nat :=
  (ds.filter (fun d => d.browserId == bid)).length

/-- The inductive invariant of the pool machine: the queue is sorted by
`qLt` with ids below the task counter and no duplicates, dispatch task
ids are fresh w.r.t. the queue and each other, roster ids are unique
and below the browser counter, and every roster entry's `pagesOpen`
equals the number of live dispatches holding it and stays within
`maxPagesPerBrowser`. -/
structure PoolInv (s : PoolState) : Prop where
  qSorted : s.queue.Pairwise qLt
  qIdsLt : ∀ it ∈ s.queue, it.id < s.taskIdCounter
  qIdsNodup : (s.queue.map (fun it => it.id)).Nodup
  dIdsLt : ∀ d ∈ s.dispatches, d.taskId < s.taskIdCounter
  qdDisj : ∀ it ∈ s.queue, ∀ d ∈ s.dispatches, it.id ≠ d.taskId
  dNodup : (s.dispatches.map (fun d => d.taskId)).Nodup
  bNodup : (s.browsers.map (fun b => b.id)).Nodup
  bIdsLt : ∀ b ∈ s.browsers, b.id < s.browserIdCounter
  dBidLt : ∀ d ∈ s.dispatches, d.browserId < s.browserIdCounter
  pagesCount : ∀ b ∈ s.browsers, b.pagesOpen = dispatchCount s.dispatches b.id
  pagesLe : ∀ b ∈ s.browsers, b.pagesOpen ≤ s.cfg.maxPagesPerBrowser
  sdImp : s.shutdownDone = true → s.shuttingDown = true

/-- What stays true from the moment `shutdown()` ran its synchronous
part onwards, relative to the state `s0` it was called in (assuming no
launch was pending then): the gate is set, no launch is or becomes
pending, the queue stays drained, every task queued at `s0` has been
rejected with the cancellation error, every `s0` browser's close is
either still pending or has settled, every roster browser is still
awaiting its close, and the shutdown promise resolves only once every
close has settled. -/
def DrainInv (s0 s : PoolState) : Prop :=
  s.shuttingDown = true ∧ s.pendingLaunches = [] ∧ s.queue = [] ∧
  (∀ it ∈ s0.queue, (it.id, Settlement.cancelled) ∈ s.settled) ∧
  (∀ b ∈ s0.browsers, b.id ∈ s.pendingCloses ∨ b.id ∈ s.closedLog) ∧
  (∀ b ∈ s.browsers, b.id ∈ s.pendingCloses) ∧
  (s.shutdownDone = true → s.pendingCloses = [])

/-!
## The per-dispatch timeout race, promise by promise

Lines 209-246 in isolation.  One dispatched task owns three promises:
the task execution promise, the timeout promise (whose `setTimeout`
callback rejects it only when the `taskCompleted` latch is still
clear), and their `Promise.race`, whose `then`/`catch` handlers set the
latch and settle the caller's promise.  A promise settles at most once
and `Promise.race` adopts the first settlement of its inputs, ignoring
later ones.  The macrotask events are: the task execution settles
(successfully or not), or the timer fires; the handlers they trigger
are microtasks that run before the next macrotask, hence inside the
same atomic step.
-/

/-- The ways the caller's promise can be settled by the race
(lines 227-238). -/
inductive RunnerOutcome where
  | resolved
  | rejectedFailure
  | rejectedTimeout
deriving DecidableEq

/-- The macrotask events of one dispatched task's race. -/
inductive RunnerEvent where
  /-- The task execution promise settles (`ok` = resolve). -/
  | taskSettles (ok : Bool)
  /-- The `setTimeout` callback of line 213 runs. -/
  | timerFires
deriving DecidableEq

/-- The promise-level state of one dispatch: the `taskCompleted` latch
(line 209), whether the race has settled (and how), whether the timer
callback has run, whether the task execution promise has settled, and
the list of settlements performed on the caller's promise (each entry
is one call of `queuedItem.resolve`/`queuedItem.reject`,
lines 229/237). -/
structure RunnerState where
  taskCompleted : Bool
  raceSettled : Option RunnerOutcome
  timerFired : Bool
  taskDone : Bool
  settlements : List RunnerOutcome
deriving DecidableEq

/-- The state right after dispatch (lines 209-225): latch clear,
nothing settled. -/
def runnerInit : RunnerState :=
  { taskCompleted := false
    raceSettled := none
    timerFired := false
    taskDone := false
    settlements := [] }

/-- One macrotask step of the race.  A task-settlement while the race
is already settled is the late-arriving result: the race ignores it and
the caller's promise is not touched again.  The timer callback rejects
the timeout promise only when the latch is clear (line 214); a race
that is already settled ignores the rejection anyway. -/
def runnerStep (st : RunnerState) : RunnerEvent → RunnerState
  | .taskSettles ok =>
    if st.taskDone then st else
    match st.raceSettled with
    | some _ => { st with taskDone := true }
    | none =>
      let o := if ok then RunnerOutcome.resolved else RunnerOutcome.rejectedFailure
      { st with taskDone := true, raceSettled := some o, taskCompleted := true
                settlements := st.settlements ++ [o] }
  | .timerFires =>
    if st.timerFired then st else
    if st.taskCompleted then { st with timerFired := true }
    else
      match st.raceSettled with
      | some _ => { st with timerFired := true }
      | none =>
        { st with timerFired := true, taskCompleted := true
                  raceSettled := some RunnerOutcome.rejectedTimeout
                  settlements := st.settlements ++ [RunnerOutcome.rejectedTimeout] }

/-- Run the race from a state through a sequence of macrotask events. -/
def runnerRun (st : RunnerState) : List RunnerEvent → RunnerState
  | [] => st
  | e :: evs => runnerRun (runnerStep st e) evs

/-- The specification's description of the race outcome, from the
spec's words (section 4.4): exactly one of the three outcomes occurs,
decided by whichever signal arrives first, and nothing settles the
caller's promise a second time. -/
def specFirstSignalWins : List RunnerEvent → List RunnerOutcome
  | [] => []
  | RunnerEvent.taskSettles ok :: _ =>
    [if ok then RunnerOutcome.resolved else RunnerOutcome.rejectedFailure]
  | RunnerEvent.timerFires :: _ => [RunnerOutcome.rejectedTimeout]

/-! ## Concrete states used to exercise the theorems -/

/-- A pool configured with one default browser, no adblock pool, no
extension path, one page per browser. -/
def demoCfg : Config := Config.mk 1 0 false 1

/-- Warm-up launch completes, then one task is enqueued and dispatched. -/
def demoTrace : List Event :=
  [Event.launchSettles 0 true, Event.enqueue true false 0]

/-- The state `demoTrace` reaches: browser 0 busy with one page open,
task 0 dispatched to it, queue empty. -/
def sDemo : PoolState :=
  { cfg := demoCfg
    browsers := [BrowserSt.mk 0 BType.default true 1 true]
    queue := []
    taskIdCounter := 1
    browserIdCounter := 1
    launchIdCounter := 1
    pendingLaunches := []
    dispatches := [Dispatch.mk 0 0]
    executions := [Dispatch.mk 0 0]
    ghosts := []
    shuttingDown := false
    pendingCloses := []
    closedLog := []
    settled := []
    launchFailures := 0
    shutdownDone := false }

/-- A pool with both caps configured to zero: every enqueued task stays
queued. -/
def zeroCfg : Config := Config.mk 0 0 false 1

/-- Four enqueues with priorities 1, 5, 5, 3 under `zeroCfg`. -/
def queueTrace : List Event :=
  [Event.enqueue true false 1, Event.enqueue true false 5,
   Event.enqueue true false 5, Event.enqueue true false 3]

/-- The state `queueTrace` reaches: the queue sorted by descending
priority, equal priorities in enqueue order. -/
def sQueueDemo : PoolState :=
  { cfg := zeroCfg
    browsers := []
    queue := [QItem.mk 1 5 false, QItem.mk 2 5 false,
              QItem.mk 3 3 false, QItem.mk 0 1 false]
    taskIdCounter := 4
    browserIdCounter := 0
    launchIdCounter := 0
    pendingLaunches := []
    dispatches := []
    executions := []
    ghosts := []
    shuttingDown := false
    pendingCloses := []
    closedLog := []
    settled := []
    launchFailures := 0
    shutdownDone := false }

/-- The state reached from `sQueueDemo` by `shutdown()` beginning and
resolving: gate set, queue drained with every task rejected, no
browsers. -/
def sQueueShut : PoolState :=
  { cfg := zeroCfg
    browsers := []
    queue := []
    taskIdCounter := 4
    browserIdCounter := 0
    launchIdCounter := 0
    pendingLaunches := []
    dispatches := []
    executions := []
    ghosts := []
    shuttingDown := true
    pendingCloses := []
    closedLog := []
    settled := [(1, Settlement.cancelled), (2, Settlement.cancelled),
                (3, Settlement.cancelled), (0, Settlement.cancelled)]
    launchFailures := 0
    shutdownDone := true }

/-- Pool construction state after its single warm-up launch failed. -/
def sWarmFail : PoolState :=
  { cfg := demoCfg
    browsers := []
    queue := []
    taskIdCounter := 0
    browserIdCounter := 0
    launchIdCounter := 1
    pendingLaunches := []
    dispatches := []
    executions := []
    ghosts := []
    shuttingDown := false
    pendingCloses := []
    closedLog := []
    settled := []
    launchFailures := 1
    shutdownDone := false }

/-- `sWarmFail` after the teardown shutdown ran and resolved. -/
def sWarmFailShut : PoolState :=
  { sWarmFail with shuttingDown := true, shutdownDone := true }

/-- An idle, connected default browser with no page open. -/
def bIdle : BrowserSt := BrowserSt.mk 0 BType.default false 0 true

/-- A state with one queued default task and `bIdle` available. -/
def sIdleQ : PoolState :=
  { cfg := demoCfg
    browsers := [bIdle]
    queue := [QItem.mk 0 0 false]
    taskIdCounter := 1
    browserIdCounter := 1
    launchIdCounter := 1
    pendingLaunches := []
    dispatches := []
    executions := []
    ghosts := []
    shuttingDown := false
    pendingCloses := []
    closedLog := []
    settled := []
    launchFailures := 0
    shutdownDone := false }

/-! ## Properties of the stable sort -/

theorem mem_insertDesc {x y : QItem} {l : List QItem} :
    y ∈ insertDesc x l ↔ y = x ∨ y ∈ l := by
  induction l with
  | nil => simp [insertDesc]
  | cons a t ih =>
    simp only [insertDesc]
    split
    · simp only [List.mem_cons, ih]
      tauto
    · simp only [List.mem_cons]

theorem perm_insertDesc (x : QItem) (l : List QItem) :
    (insertDesc x l).Perm (x :: l) := by
  induction l with
  | nil => simp [insertDesc]
  | cons a t ih =>
    simp only [insertDesc]
    split
    · exact (ih.cons a).trans (List.Perm.swap x a t)
    · exact List.Perm.refl _

theorem perm_jsSortDesc (l : List QItem) : (jsSortDesc l).Perm l := by
  induction l with
  | nil => simp [jsSortDesc]
  | cons a t ih =>
    have hstep : jsSortDesc (a :: t) = insertDesc a (jsSortDesc t) := rfl
    rw [hstep]
    exact (perm_insertDesc a _).trans (ih.cons a)

theorem pairwise_insertDesc {a : QItem} :
    ∀ {M : List QItem}, M.Pairwise qLt →
      (∀ y ∈ M, a.priority = y.priority → a.id < y.id) →
      (insertDesc a M).Pairwise qLt := by
  intro M
  induction M with
  | nil =>
    intro _ _
    simp [insertDesc]
  | cons y M' ih =>
    intro hM htie
    rw [List.pairwise_cons] at hM
    obtain ⟨hy, hM'⟩ := hM
    simp only [insertDesc]
    split
    case isTrue hlt =>
      refine List.Pairwise.cons ?_ (ih hM' ?_)
      · intro z hz
        rcases mem_insertDesc.mp hz with rfl | hz'
        · exact Or.inl hlt
        · exact hy z hz'
      · intro z hz hpz
        exact htie z (List.mem_cons_of_mem y hz) hpz
    case isFalse hge =>
      refine List.Pairwise.cons ?_ (List.Pairwise.cons hy hM')
      intro z hz
      rcases List.mem_cons.mp hz with rfl | hz'
      · rcases lt_or_eq_of_le (not_lt.mp hge) with h | h
        · exact Or.inl h
        · exact Or.inr ⟨h.symm, htie z (List.mem_cons_self _ _) h.symm⟩
      · have hyz := hy z hz'
        have hzy : z.priority ≤ y.priority := by
          rcases hyz with h | h
          · exact le_of_lt h
          · exact le_of_eq h.1.symm
        have hza : z.priority ≤ a.priority := le_trans hzy (not_lt.mp hge)
        rcases lt_or_eq_of_le hza with h | h
        · exact Or.inl h
        · exact Or.inr ⟨h.symm, htie z (List.mem_cons_of_mem y hz') h.symm⟩

theorem pairwise_sortAppend (x : QItem) :
    ∀ (l : List QItem), l.Pairwise qLt → (∀ y ∈ l, y.id < x.id) →
      (jsSortDesc (l ++ [x])).Pairwise qLt := by
  intro l
  induction l with
  | nil =>
    intro _ _
    simp [jsSortDesc, insertDesc]
  | cons a t ih =>
    intro hl hx
    rw [List.pairwise_cons] at hl
    obtain ⟨ha, ht⟩ := hl
    have hstep : jsSortDesc ((a :: t) ++ [x]) = insertDesc a (jsSortDesc (t ++ [x])) := rfl
    rw [hstep]
    refine pairwise_insertDesc (ih ht ?_) ?_
    · intro y hy
      exact hx y (List.mem_cons_of_mem a hy)
    · intro y hy hpy
      have hmem := (perm_jsSortDesc (t ++ [x])).mem_iff.mp hy
      rcases List.mem_append.mp hmem with h | h
      · rcases ha y h with hlt | heq
        · omega
        · exact heq.2
      · have hyx : y = x := by simpa using h
        subst hyx
        exact hx a (List.mem_cons_self a t)

theorem pairwise_pqEnqueue {l : List QItem} {x : QItem}
    (hl : l.Pairwise qLt) (hx : ∀ y ∈ l, y.id < x.id) :
    (pqEnqueue l x).Pairwise qLt :=
  pairwise_sortAppend x l hl hx

theorem mem_pqEnqueue {l : List QItem} {x y : QItem} :
    y ∈ pqEnqueue l x ↔ y ∈ l ∨ y = x := by
  unfold pqEnqueue
  rw [(perm_jsSortDesc (l ++ [x])).mem_iff]
  simp

theorem nodup_ids_pqEnqueue {l : List QItem} {x : QItem}
    (hl : (l.map (fun it => it.id)).Nodup) (hx : ∀ y ∈ l, y.id ≠ x.id) :
    ((pqEnqueue l x).map (fun it => it.id)).Nodup := by
  unfold pqEnqueue
  rw [((perm_jsSortDesc (l ++ [x])).map (fun it => it.id)).nodup_iff]
  rw [List.map_append, List.nodup_append]
  refine ⟨hl, List.nodup_singleton _, ?_⟩
  intro i hi hix
  rcases List.mem_map.mp hi with ⟨y, hy, rfl⟩
  have : y.id = x.id := by simpa using hix
  exact hx y hy this

/-! ## Counting dispatches per browser -/

theorem dispatchCount_append (ds : List Dispatch) (d : Dispatch) (bid : Nat) :
    dispatchCount (ds ++ [d]) bid
      = dispatchCount ds bid + (if d.browserId = bid then 1 else 0) := by
  unfold dispatchCount
  rw [List.filter_append, List.length_append]
  by_cases h : d.browserId = bid <;> simp [h]

theorem dispatchCount_pos {ds : List Dispatch} {d : Dispatch} (hd : d ∈ ds)
    {bid : Nat} (hb : d.browserId = bid) : 1 ≤ dispatchCount ds bid := by
  unfold dispatchCount
  have hmem : d ∈ ds.filter (fun d' => d'.browserId == bid) :=
    List.mem_filter.mpr ⟨hd, by simp [hb]⟩
  exact List.length_pos.mpr (List.ne_nil_of_mem hmem)

theorem dispatchCount_eq_zero {ds : List Dispatch} {bid : Nat}
    (h : ∀ d ∈ ds, d.browserId ≠ bid) : dispatchCount ds bid = 0 := by
  unfold dispatchCount
  rw [List.length_eq_zero, List.filter_eq_nil_iff]
  intro d hd
  simp [h d hd]

theorem dispatchCount_cons (a : Dispatch) (ds : List Dispatch) (bid : Nat) :
    dispatchCount (a :: ds) bid
      = (if a.browserId = bid then 1 else 0) + dispatchCount ds bid := by
  unfold dispatchCount
  by_cases h : a.browserId = bid <;> simp [List.filter_cons, h] <;> omega

theorem dispatchCount_removeTask (tid : Nat) :
    ∀ (ds : List Dispatch), ((ds.map (fun d => d.taskId)).Nodup) →
      ∀ d ∈ ds, d.taskId = tid →
      ∀ bid, dispatchCount (ds.filter (fun d' => !(d'.taskId == tid))) bid
        = dispatchCount ds bid - (if d.browserId = bid then 1 else 0) := by
  intro ds
  induction ds with
  | nil =>
    intro _ d hd
    cases hd
  | cons a t ih =>
    intro hnd d hd htid bid
    rw [List.map_cons, List.nodup_cons] at hnd
    obtain ⟨hna, hnt⟩ := hnd
    by_cases hat : a.taskId = tid
    · have hda : d = a := by
        rcases List.mem_cons.mp hd with h | h
        · exact h
        · exfalso
          apply hna
          rw [hat, ← htid]
          exact List.mem_map_of_mem _ h
      subst hda
      have hft : t.filter (fun d' => !(d'.taskId == tid)) = t := by
        refine List.filter_eq_self.mpr ?_
        intro d' hd'
        have hne : d'.taskId ≠ tid := by
          intro hcon
          apply hna
          rw [hat, ← hcon]
          exact List.mem_map_of_mem _ hd'
        simp [hne]
      have h1 : (d :: t).filter (fun d' => !(d'.taskId == tid)) = t := by
        rw [List.filter_cons]
        simp [hat, hft]
      rw [h1, dispatchCount_cons]
      by_cases hab : d.browserId = bid <;> simp [hab]
    · have hdt : d ∈ t := by
        rcases List.mem_cons.mp hd with h | h
        · exact absurd (h ▸ htid) hat
        · exact h
      have hrec := ih hnt d hdt htid bid
      have hpos : (if d.browserId = bid then 1 else 0) ≤ dispatchCount t bid := by
        by_cases hb : d.browserId = bid
        · simpa [hb] using dispatchCount_pos hdt hb
        · simp [hb]
      have h1 : (a :: t).filter (fun d' => !(d'.taskId == tid))
          = a :: t.filter (fun d' => !(d'.taskId == tid)) := by
        rw [List.filter_cons]
        simp [hat]
      rw [h1, dispatchCount_cons, dispatchCount_cons, hrec]
      omega

theorem eq_of_mem_nodup_ids {bs : List BrowserSt}
    (hnd : (bs.map (fun b => b.id)).Nodup) {b1 b2 : BrowserSt}
    (h1 : b1 ∈ bs) (h2 : b2 ∈ bs) (hid : b1.id = b2.id) : b1 = b2 :=
  List.inj_on_of_nodup_map hnd h1 h2 hid

theorem updateBrowser_map_id (bs : List BrowserSt) (bid : Nat) (f : BrowserSt → BrowserSt)
    (hf : ∀ b, (f b).id = b.id) :
    (updateBrowser bs bid f).map (fun b => b.id) = bs.map (fun b => b.id) := by
  unfold updateBrowser
  rw [List.map_map]
  refine List.map_congr_left ?_
  intro b _
  by_cases h : b.id = bid <;> simp [h, hf]

theorem mem_updateBrowser {bs : List BrowserSt} {bid : Nat} {f : BrowserSt → BrowserSt}
    {b' : BrowserSt} (h : b' ∈ updateBrowser bs bid f) :
    ∃ b ∈ bs, b' = if b.id = bid then f b else b := by
  unfold updateBrowser at h
  rcases List.mem_map.mp h with ⟨b, hb, hb'⟩
  refine ⟨b, hb, ?_⟩
  by_cases hid : b.id = bid <;> simp [hid] at hb' ⊢ <;> exact hb'.symm

/-! ## Equations of the scheduler pass -/

theorem processQueue_gated {s : PoolState} (h : s.shuttingDown = true) :
    processQueue s = s := by
  unfold processQueue
  simp [h]

theorem processQueue_nilQueue {s : PoolState} (h1 : s.shuttingDown = false)
    (h2 : s.queue = []) : processQueue s = s := by
  unfold processQueue
  simp [h1, h2]

theorem processQueue_dispatch {s : PoolState} (h1 : s.shuttingDown = false)
    {it : QItem} {rest : List QItem} (h2 : s.queue = it :: rest)
    {b : BrowserSt} (h3 : findSuitableBrowser s it.useAdblock = some b) :
    processQueue s = dispatchTo s it b := by
  unfold processQueue
  simp [h1, h2, h3]

theorem processQueue_launch {s : PoolState} (h1 : s.shuttingDown = false)
    {it : QItem} {rest : List QItem} (h2 : s.queue = it :: rest)
    (h3 : findSuitableBrowser s it.useAdblock = none)
    (h4 : countType s.browsers (requiredBType it.useAdblock)
        < s.cfg.cap (requiredBType it.useAdblock)) :
    processQueue s = { s with
      pendingLaunches := s.pendingLaunches
        ++ [⟨s.launchIdCounter, requiredBType it.useAdblock, true⟩]
      launchIdCounter := s.launchIdCounter + 1 } := by
  unfold processQueue
  simp [h1, h2, h3, h4]

theorem processQueue_full {s : PoolState} (h1 : s.shuttingDown = false)
    {it : QItem} {rest : List QItem} (h2 : s.queue = it :: rest)
    (h3 : findSuitableBrowser s it.useAdblock = none)
    (h4 : ¬ countType s.browsers (requiredBType it.useAdblock)
        < s.cfg.cap (requiredBType it.useAdblock)) :
    processQueue s = s := by
  unfold processQueue
  simp [h1, h2, h3, h4]

/-! ## Preservation of the pool invariant -/

theorem poolInv_of_eq {s s' : PoolState} (h : PoolInv s)
    (hcfg : s'.cfg = s.cfg) (hb : s'.browsers = s.browsers) (hq : s'.queue = s.queue)
    (htc : s'.taskIdCounter = s.taskIdCounter)
    (hbc : s'.browserIdCounter = s.browserIdCounter)
    (hd : s'.dispatches = s.dispatches)
    (hsd : s'.shutdownDone = true → s'.shuttingDown = true) : PoolInv s' := by
  constructor
  · rw [hq]; exact h.qSorted
  · rw [hq, htc]; exact h.qIdsLt
  · rw [hq]; exact h.qIdsNodup
  · rw [hd, htc]; exact h.dIdsLt
  · rw [hq, hd]; exact h.qdDisj
  · rw [hd]; exact h.dNodup
  · rw [hb]; exact h.bNodup
  · rw [hb, hbc]; exact h.bIdsLt
  · rw [hd, hbc]; exact h.dBidLt
  · rw [hb, hd]; exact h.pagesCount
  · rw [hb, hcfg]; exact h.pagesLe
  · exact hsd

theorem poolInv_dispatchTo {s : PoolState} (h : PoolInv s)
    {it : QItem} {rest : List QItem} (hq : s.queue = it :: rest)
    {b : BrowserSt} (hfind : findSuitableBrowser s it.useAdblock = some b) :
    PoolInv (dispatchTo s it b) := by
  have hb : b ∈ s.browsers := List.mem_of_find?_eq_some hfind
  have hpred := List.find?_some hfind
  simp only [Bool.and_eq_true, Bool.not_eq_true', decide_eq_true_eq, beq_iff_eq] at hpred
  obtain ⟨⟨⟨hbusy, hpage⟩, htype⟩, hconn⟩ := hpred
  have hit : it ∈ s.queue := by rw [hq]; exact List.mem_cons_self _ _
  have hqn := h.qIdsNodup
  rw [hq, List.map_cons, List.nodup_cons] at hqn
  obtain ⟨hhead, htail⟩ := hqn
  constructor
  · show (s.queue.tail).Pairwise qLt
    rw [hq]
    exact (hq ▸ h.qSorted).of_cons
  · show ∀ y ∈ s.queue.tail, y.id < s.taskIdCounter
    rw [hq]
    intro y hy
    exact h.qIdsLt y (by rw [hq]; exact List.mem_cons_of_mem it hy)
  · show ((s.queue.tail).map (fun q => q.id)).Nodup
    rw [hq]
    exact htail
  · intro d hd
    rcases List.mem_append.mp hd with hold | hnew
    · exact h.dIdsLt d hold
    · have : d = ⟨it.id, b.id⟩ := by simpa using hnew
      subst this
      exact h.qIdsLt it hit
  · intro y hy d hd
    have hy' : y ∈ rest := by
      have hmemt : y ∈ s.queue.tail := hy
      rwa [hq] at hmemt
    rcases List.mem_append.mp hd with hold | hnew
    · exact h.qdDisj y (by rw [hq]; exact List.mem_cons_of_mem it hy') d hold
    · have hdval : d = ⟨it.id, b.id⟩ := by simpa using hnew
      subst hdval
      intro hcon
      apply hhead
      have hyid : y.id = it.id := hcon
      rw [← hyid]
      exact List.mem_map_of_mem _ hy'
  · show ((s.dispatches ++ [Dispatch.mk it.id b.id]).map (fun d => d.taskId)).Nodup
    rw [List.map_append, List.nodup_append]
    refine ⟨h.dNodup, List.nodup_singleton _, ?_⟩
    intro x hx hx1
    rcases List.mem_map.mp hx with ⟨d, hd, rfl⟩
    have hxid : d.taskId = it.id := by simpa using hx1
    exact h.qdDisj it hit d hd hxid.symm
  · show ((updateBrowser s.browsers b.id
      (fun x => { x with busy := true, pagesOpen := x.pagesOpen + 1 })).map
        (fun x => x.id)).Nodup
    rw [updateBrowser_map_id s.browsers b.id
      (fun x => { x with busy := true, pagesOpen := x.pagesOpen + 1 }) (fun _ => rfl)]
    exact h.bNodup
  · intro b' hb'
    rcases mem_updateBrowser hb' with ⟨b0, hb0, hbeq⟩
    have hid' : b'.id = b0.id := by
      by_cases hid : b0.id = b.id
      · rw [if_pos hid] at hbeq
        rw [hbeq]
      · rw [if_neg hid] at hbeq
        rw [hbeq]
    rw [hid']
    exact h.bIdsLt b0 hb0
  · intro d hd
    rcases List.mem_append.mp hd with hold | hnew
    · exact h.dBidLt d hold
    · have hdval : d = ⟨it.id, b.id⟩ := by simpa using hnew
      subst hdval
      exact h.bIdsLt b hb
  · intro b' hb'
    rcases mem_updateBrowser hb' with ⟨b0, hb0, hbeq⟩
    show b'.pagesOpen = dispatchCount (s.dispatches ++ [Dispatch.mk it.id b.id]) b'.id
    rw [dispatchCount_append]
    by_cases hid : b0.id = b.id
    · rw [if_pos hid] at hbeq
      have hbid : b'.id = b.id := by rw [hbeq]; exact hid
      have hpg : b'.pagesOpen = b0.pagesOpen + 1 := by rw [hbeq]
      rw [hbid, if_pos rfl, hpg, h.pagesCount b0 hb0, hid]
    · rw [if_neg hid] at hbeq
      have hbid : b'.id = b0.id := by rw [hbeq]
      have hpg : b'.pagesOpen = b0.pagesOpen := by rw [hbeq]
      rw [hbid, if_neg (fun hcon => hid hcon.symm), hpg]
      simpa using h.pagesCount b0 hb0
  · intro b' hb'
    rcases mem_updateBrowser hb' with ⟨b0, hb0, hbeq⟩
    show b'.pagesOpen ≤ s.cfg.maxPagesPerBrowser
    by_cases hid : b0.id = b.id
    · rw [if_pos hid] at hbeq
      have hb0b : b0 = b := eq_of_mem_nodup_ids h.bNodup hb0 hb hid
      have hpg : b'.pagesOpen = b0.pagesOpen + 1 := by rw [hbeq]
      rw [hpg, hb0b]
      exact hpage
    · rw [if_neg hid] at hbeq
      have hpg : b'.pagesOpen = b0.pagesOpen := by rw [hbeq]
      rw [hpg]
      exact h.pagesLe b0 hb0
  · exact h.sdImp

theorem poolInv_processQueue {s : PoolState} (h : PoolInv s) :
    PoolInv (processQueue s) := by
  by_cases hsd : s.shuttingDown = true
  · rw [processQueue_gated hsd]
    exact h
  · have hsd' : s.shuttingDown = false := by
      cases hb : s.shuttingDown
      · rfl
      · exact absurd hb hsd
    match hq : s.queue with
    | [] =>
      rw [processQueue_nilQueue hsd' hq]
      exact h
    | it :: rest =>
      match hfind : findSuitableBrowser s it.useAdblock with
      | some b =>
        rw [processQueue_dispatch hsd' hq hfind]
        exact poolInv_dispatchTo h hq hfind
      | none =>
        by_cases hcap : countType s.browsers (requiredBType it.useAdblock)
            < s.cfg.cap (requiredBType it.useAdblock)
        · rw [processQueue_launch hsd' hq hfind hcap]
          exact poolInv_of_eq h rfl rfl rfl rfl rfl rfl h.sdImp
        · rw [processQueue_full hsd' hq hfind hcap]
          exact h

theorem poolInv_removeB {s : PoolState} (h : PoolInv s) (bid : Nat) :
    PoolInv { s with browsers := removeBrowser s.browsers bid } := by
  have hsub : List.Sublist (removeBrowser s.browsers bid) s.browsers :=
    List.filter_sublist s.browsers
  constructor
  · exact h.qSorted
  · exact h.qIdsLt
  · exact h.qIdsNodup
  · exact h.dIdsLt
  · exact h.qdDisj
  · exact h.dNodup
  · exact h.bNodup.sublist (hsub.map (fun b => b.id))
  · intro b hb
    exact h.bIdsLt b (hsub.subset hb)
  · exact h.dBidLt
  · intro b hb
    exact h.pagesCount b (hsub.subset hb)
  · intro b hb
    exact h.pagesLe b (hsub.subset hb)
  · exact h.sdImp

theorem poolInv_update_keep {s : PoolState} (h : PoolInv s) (bid : Nat)
    (f : BrowserSt → BrowserSt) (hid : ∀ b, (f b).id = b.id)
    (hpg : ∀ b, (f b).pagesOpen = b.pagesOpen) :
    PoolInv { s with browsers := updateBrowser s.browsers bid f } := by
  have hkey : ∀ b' ∈ updateBrowser s.browsers bid f,
      ∃ b0 ∈ s.browsers, b'.id = b0.id ∧ b'.pagesOpen = b0.pagesOpen := by
    intro b' hb'
    rcases mem_updateBrowser hb' with ⟨b0, hb0, hbeq⟩
    refine ⟨b0, hb0, ?_, ?_⟩
    · by_cases hc : b0.id = bid
      · rw [if_pos hc] at hbeq
        rw [hbeq, hid]
      · rw [if_neg hc] at hbeq
        rw [hbeq]
    · by_cases hc : b0.id = bid
      · rw [if_pos hc] at hbeq
        rw [hbeq, hpg]
      · rw [if_neg hc] at hbeq
        rw [hbeq]
  constructor
  · exact h.qSorted
  · exact h.qIdsLt
  · exact h.qIdsNodup
  · exact h.dIdsLt
  · exact h.qdDisj
  · exact h.dNodup
  · show ((updateBrowser s.browsers bid f).map (fun b => b.id)).Nodup
    rw [updateBrowser_map_id s.browsers bid f hid]
    exact h.bNodup
  · intro b' hb'
    rcases hkey b' hb' with ⟨b0, hb0, h1, _⟩
    rw [h1]
    exact h.bIdsLt b0 hb0
  · exact h.dBidLt
  · intro b' hb'
    rcases hkey b' hb' with ⟨b0, hb0, h1, h2⟩
    show b'.pagesOpen = dispatchCount s.dispatches b'.id
    rw [h1, h2]
    exact h.pagesCount b0 hb0
  · intro b' hb'
    rcases hkey b' hb' with ⟨b0, hb0, _, h2⟩
    show b'.pagesOpen ≤ s.cfg.maxPagesPerBrowser
    rw [h2]
    exact h.pagesLe b0 hb0
  · exact h.sdImp

theorem poolInv_settleRelease {s : PoolState} (h : PoolInv s) {tid : Nat}
    {d : Dispatch} (hfind : s.dispatches.find? (fun d' => d'.taskId == tid) = some d)
    (k : RaceResult) : PoolInv (settleRelease s tid k) := by
  have hd : d ∈ s.dispatches := List.mem_of_find?_eq_some hfind
  have htid : d.taskId = tid := by simpa using List.find?_some hfind
  have hsub : List.Sublist (s.dispatches.filter (fun d' => !(d'.taskId == tid)))
      s.dispatches := List.filter_sublist _
  unfold settleRelease
  rw [hfind]
  constructor
  · exact h.qSorted
  · exact h.qIdsLt
  · exact h.qIdsNodup
  · intro d' hd'
    exact h.dIdsLt d' (hsub.subset hd')
  · intro y hy d' hd'
    exact h.qdDisj y hy d' (hsub.subset hd')
  · exact h.dNodup.sublist (hsub.map (fun x => x.taskId))
  · show ((updateBrowser s.browsers d.browserId
      (fun x => { x with pagesOpen := x.pagesOpen - 1, busy := false })).map
        (fun b => b.id)).Nodup
    rw [updateBrowser_map_id s.browsers d.browserId
      (fun x => { x with pagesOpen := x.pagesOpen - 1, busy := false }) (fun _ => rfl)]
    exact h.bNodup
  · intro b' hb'
    rcases mem_updateBrowser hb' with ⟨b0, hb0, hbeq⟩
    have hid' : b'.id = b0.id := by
      by_cases hc : b0.id = d.browserId
      · rw [if_pos hc] at hbeq
        rw [hbeq]
      · rw [if_neg hc] at hbeq
        rw [hbeq]
    rw [hid']
    exact h.bIdsLt b0 hb0
  · intro d' hd'
    exact h.dBidLt d' (hsub.subset hd')
  · intro b' hb'
    rcases mem_updateBrowser hb' with ⟨b0, hb0, hbeq⟩
    have hrem := dispatchCount_removeTask tid s.dispatches h.dNodup d hd htid
    show b'.pagesOpen
      = dispatchCount (s.dispatches.filter (fun d' => !(d'.taskId == tid))) b'.id
    rw [hrem b'.id]
    by_cases hc : b0.id = d.browserId
    · rw [if_pos hc] at hbeq
      have hbid : b'.id = b0.id := by rw [hbeq]
      have hpg : b'.pagesOpen = b0.pagesOpen - 1 := by rw [hbeq]
      have hcond : d.browserId = b'.id := by rw [hbid, hc]
      rw [if_pos hcond, hpg, hbid, h.pagesCount b0 hb0]
    · rw [if_neg hc] at hbeq
      have hbid : b'.id = b0.id := by rw [hbeq]
      have hpg : b'.pagesOpen = b0.pagesOpen := by rw [hbeq]
      have hcond : ¬ (d.browserId = b'.id) := by
        rw [hbid]
        exact fun hcon => hc hcon.symm
      rw [if_neg hcond, hpg, hbid, h.pagesCount b0 hb0]
      omega
  · intro b' hb'
    rcases mem_updateBrowser hb' with ⟨b0, hb0, hbeq⟩
    show b'.pagesOpen ≤ s.cfg.maxPagesPerBrowser
    by_cases hc : b0.id = d.browserId
    · rw [if_pos hc] at hbeq
      have hpg : b'.pagesOpen = b0.pagesOpen - 1 := by rw [hbeq]
      rw [hpg]
      exact le_trans (Nat.sub_le _ _) (h.pagesLe b0 hb0)
    · rw [if_neg hc] at hbeq
      have hpg : b'.pagesOpen = b0.pagesOpen := by rw [hbeq]
      rw [hpg]
      exact h.pagesLe b0 hb0
  · exact h.sdImp

theorem poolInv_enqueueMid {s : PoolState} (h : PoolInv s) (priority : Int) (ua : Bool) :
    PoolInv { s with
      queue := pqEnqueue s.queue ⟨s.taskIdCounter, priority, ua⟩
      taskIdCounter := s.taskIdCounter + 1 } := by
  constructor
  · exact pairwise_pqEnqueue h.qSorted (fun y hy => h.qIdsLt y hy)
  · intro y hy
    rcases mem_pqEnqueue.mp hy with hy' | rfl
    · exact Nat.lt_succ_of_lt (h.qIdsLt y hy')
    · exact Nat.lt_succ_self _
  · refine nodup_ids_pqEnqueue h.qIdsNodup ?_
    intro y hy
    exact Nat.ne_of_lt (h.qIdsLt y hy)
  · intro d hd
    exact Nat.lt_succ_of_lt (h.dIdsLt d hd)
  · intro y hy d hd
    rcases mem_pqEnqueue.mp hy with hy' | rfl
    · exact h.qdDisj y hy' d hd
    · intro hcon
      have hlt := h.dIdsLt d hd
      have hcon' : s.taskIdCounter = d.taskId := hcon
      omega
  · exact h.dNodup
  · exact h.bNodup
  · exact h.bIdsLt
  · exact h.dBidLt
  · exact h.pagesCount
  · exact h.pagesLe
  · exact h.sdImp

theorem poolInv_launchPush {s : PoolState} (h : PoolInv s) (t : BType)
    (P : List PendingLaunch) :
    PoolInv { s with
      pendingLaunches := P
      browsers := s.browsers ++ [BrowserSt.mk s.browserIdCounter t false 0 true]
      browserIdCounter := s.browserIdCounter + 1 } := by
  constructor
  · exact h.qSorted
  · exact h.qIdsLt
  · exact h.qIdsNodup
  · exact h.dIdsLt
  · exact h.qdDisj
  · exact h.dNodup
  · show ((s.browsers ++ [BrowserSt.mk s.browserIdCounter t false 0 true]).map
      (fun b => b.id)).Nodup
    rw [List.map_append, List.nodup_append]
    refine ⟨h.bNodup, List.nodup_singleton _, ?_⟩
    intro x hx hx1
    rcases List.mem_map.mp hx with ⟨b, hb, rfl⟩
    have hbe : b.id = s.browserIdCounter := by simpa using hx1
    have := h.bIdsLt b hb
    omega
  · intro b hb
    rcases List.mem_append.mp hb with h1 | h2
    · exact Nat.lt_succ_of_lt (h.bIdsLt b h1)
    · have hbv : b = BrowserSt.mk s.browserIdCounter t false 0 true := by simpa using h2
      rw [hbv]
      exact Nat.lt_succ_self _
  · intro d hd
    exact Nat.lt_succ_of_lt (h.dBidLt d hd)
  · intro b hb
    rcases List.mem_append.mp hb with h1 | h2
    · exact h.pagesCount b h1
    · have hbv : b = BrowserSt.mk s.browserIdCounter t false 0 true := by simpa using h2
      rw [hbv]
      exact (dispatchCount_eq_zero (fun d hd => Nat.ne_of_lt (h.dBidLt d hd))).symm
  · intro b hb
    rcases List.mem_append.mp hb with h1 | h2
    · exact h.pagesLe b h1
    · have hbv : b = BrowserSt.mk s.browserIdCounter t false 0 true := by simpa using h2
      rw [hbv]
      exact Nat.zero_le _
  · exact h.sdImp

theorem disconnectHandler_gated {s : PoolState} (b : BrowserSt)
    (hsd : s.shuttingDown = true) :
    disconnectHandler s b = { s with browsers := removeBrowser s.browsers b.id } := by
  unfold disconnectHandler
  simp [hsd]

theorem disconnectHandler_replenish {s : PoolState} (b : BrowserSt)
    (hsd : s.shuttingDown = false)
    (hcap : countType (removeBrowser s.browsers b.id) b.type < s.cfg.cap b.type) :
    disconnectHandler s b = processQueue { s with
      browsers := removeBrowser s.browsers b.id
      pendingLaunches := s.pendingLaunches
        ++ [PendingLaunch.mk s.launchIdCounter b.type false]
      launchIdCounter := s.launchIdCounter + 1 } := by
  unfold disconnectHandler
  simp [hsd, hcap]

theorem disconnectHandler_noReplenish {s : PoolState} (b : BrowserSt)
    (hsd : s.shuttingDown = false)
    (hcap : ¬ countType (removeBrowser s.browsers b.id) b.type < s.cfg.cap b.type) :
    disconnectHandler s b
      = processQueue { s with browsers := removeBrowser s.browsers b.id } := by
  unfold disconnectHandler
  simp [hsd, hcap]

theorem poolInv_disconnectHandler {s : PoolState} (h : PoolInv s) (b : BrowserSt) :
    PoolInv (disconnectHandler s b) := by
  have h1 : PoolInv { s with browsers := removeBrowser s.browsers b.id } :=
    poolInv_removeB h b.id
  by_cases hsd : s.shuttingDown = true
  · rw [disconnectHandler_gated b hsd]
    exact h1
  · have hsd' : s.shuttingDown = false := by
      cases hb : s.shuttingDown
      · rfl
      · exact absurd hb hsd
    by_cases hcap : countType (removeBrowser s.browsers b.id) b.type < s.cfg.cap b.type
    · rw [disconnectHandler_replenish b hsd' hcap]
      exact poolInv_processQueue (poolInv_of_eq h1 rfl rfl rfl rfl rfl rfl h1.sdImp)
    · rw [disconnectHandler_noReplenish b hsd' hcap]
      exact poolInv_processQueue h1


theorem poolInv_step {s : PoolState} {e : Event} {s' : PoolState}
    (h : PoolInv s) (hs : step s e = some s') : PoolInv s' := by
  cases e with
  | enqueue isFunc ua p =>
    cases hg : enqueueGuard s isFunc ua with
    | some err =>
      simp only [step, queueTaskWithRequirements, hg, Option.some.injEq] at hs
      rw [← hs]
      exact h
    | none =>
      simp only [step, queueTaskWithRequirements, hg, Option.some.injEq] at hs
      rw [← hs]
      exact poolInv_processQueue (poolInv_enqueueMid h p ua)
  | launchSettles lid ok =>
    cases hf : s.pendingLaunches.find? (fun pl => pl.lid == lid) with
    | none =>
      simp only [step, hf] at hs
      exact Option.noConfusion hs
    | some pl =>
      simp only [step, hf] at hs
      by_cases hok : ok = true
      · rw [if_pos hok] at hs
        simp only [Option.some.injEq] at hs
        rw [← hs]
        by_cases hr : pl.retrigger = true
        · rw [if_pos hr]
          exact poolInv_processQueue (poolInv_launchPush h _ _)
        · rw [if_neg hr]
          exact poolInv_launchPush h _ _
      · rw [if_neg hok] at hs
        simp only [Option.some.injEq] at hs
        rw [← hs]
        exact poolInv_of_eq h rfl rfl rfl rfl rfl rfl h.sdImp
  | raceSettles tid k =>
    cases hf : s.dispatches.find? (fun d => d.taskId == tid) with
    | none =>
      simp only [step, hf] at hs
      exact Option.noConfusion hs
    | some d =>
      simp only [step, hf, Option.some.injEq] at hs
      rw [← hs]
      exact poolInv_processQueue (poolInv_settleRelease h hf k)
  | lateCompletes tid =>
    cases hf : s.executions.find? (fun d => d.taskId == tid) with
    | none =>
      simp only [step, hf] at hs
      exact Option.noConfusion hs
    | some d =>
      simp only [step, hf] at hs
      by_cases hdp : (s.dispatches.find? (fun d => d.taskId == tid)).isSome = true
      · rw [if_pos hdp] at hs
        exact absurd hs (by simp)
      · rw [if_neg hdp] at hs
        simp only [Option.some.injEq] at hs
        rw [← hs]
        exact poolInv_of_eq h rfl rfl rfl rfl rfl rfl h.sdImp
  | drop bid =>
    cases hf : s.browsers.find? (fun b => b.id == bid) with
    | none =>
      simp only [step, hf] at hs
      exact Option.noConfusion hs
    | some b =>
      simp only [step, hf] at hs
      by_cases hc : b.connected = true
      · rw [if_pos hc] at hs
        simp only [Option.some.injEq] at hs
        rw [← hs]
        exact poolInv_update_keep h bid (fun x => { x with connected := false })
          (fun _ => rfl) (fun _ => rfl)
      · rw [if_neg hc] at hs
        exact absurd hs (by simp)
  | disconnectFires bid =>
    cases hf : s.browsers.find? (fun b => b.id == bid) with
    | none =>
      simp only [step, hf] at hs
      exact Option.noConfusion hs
    | some b =>
      simp only [step, hf] at hs
      by_cases hc : b.connected = true
      · rw [if_pos hc] at hs
        exact absurd hs (by simp)
      · rw [if_neg hc] at hs
        simp only [Option.some.injEq] at hs
        rw [← hs]
        exact poolInv_disconnectHandler h b
  | killStart bid repl =>
    cases hf : s.browsers.find? (fun b => b.id == bid) with
    | none =>
      simp only [step, hf] at hs
      exact Option.noConfusion hs
    | some b =>
      simp only [step, hf] at hs
      have h1 : PoolInv
          { s with
            browsers := removeBrowser s.browsers bid
            ghosts := s.ghosts ++ [(b.id, b.type)] } :=
        poolInv_of_eq (poolInv_removeB h bid) rfl rfl rfl rfl rfl rfl
          (poolInv_removeB h bid).sdImp
      by_cases hc : (repl && !s.shuttingDown
          && decide (countType (removeBrowser s.browsers bid) b.type
            < s.cfg.cap b.type)) = true
      · rw [if_pos hc] at hs
        simp only [Option.some.injEq] at hs
        rw [← hs]
        exact poolInv_of_eq h1 rfl rfl rfl rfl rfl rfl h1.sdImp
      · rw [if_neg hc] at hs
        simp only [Option.some.injEq] at hs
        rw [← hs]
        exact h1
  | ghostFires bid =>
    cases hf : s.ghosts.find? (fun g => g.1 == bid) with
    | none =>
      simp only [step, hf] at hs
      exact Option.noConfusion hs
    | some g =>
      simp only [step, hf] at hs
      have h1 : PoolInv { s with ghosts := s.ghosts.filter (fun g' => !(g'.1 == bid)) } :=
        poolInv_of_eq h rfl rfl rfl rfl rfl rfl h.sdImp
      by_cases hsd : s.shuttingDown = true
      · rw [if_pos hsd] at hs
        simp only [Option.some.injEq] at hs
        rw [← hs]
        exact h1
      · rw [if_neg hsd] at hs
        simp only [Option.some.injEq] at hs
        rw [← hs]
        by_cases hcap : countType s.browsers g.2 < s.cfg.cap g.2
        · rw [if_pos hcap]
          exact poolInv_processQueue (poolInv_of_eq h1 rfl rfl rfl rfl rfl rfl h1.sdImp)
        · rw [if_neg hcap]
          exact poolInv_processQueue h1
  | shutdownStart =>
    simp only [step] at hs
    by_cases hsd : s.shuttingDown = true
    · rw [if_pos hsd] at hs
      exact absurd hs (by simp)
    · rw [if_neg hsd] at hs
      simp only [Option.some.injEq] at hs
      rw [← hs]
      constructor
      · exact List.Pairwise.nil
      · intro y hy
        exact absurd hy (List.not_mem_nil y)
      · exact List.nodup_nil
      · exact h.dIdsLt
      · intro y hy
        exact absurd hy (List.not_mem_nil y)
      · exact h.dNodup
      · exact h.bNodup
      · exact h.bIdsLt
      · exact h.dBidLt
      · exact h.pagesCount
      · exact h.pagesLe
      · intro _
        rfl
  | closeSettles bid ok =>
    simp only [step] at hs
    by_cases hc : bid ∈ s.pendingCloses
    · rw [if_pos hc] at hs
      simp only [Option.some.injEq] at hs
      rw [← hs]
      exact poolInv_of_eq (poolInv_removeB h bid) rfl rfl rfl rfl rfl rfl
        (poolInv_removeB h bid).sdImp
    · rw [if_neg hc] at hs
      exact absurd hs (by simp)
  | shutdownResolve =>
    simp only [step] at hs
    by_cases hc : (s.shuttingDown && s.pendingCloses.isEmpty && !s.shutdownDone) = true
    · rw [if_pos hc] at hs
      simp only [Option.some.injEq] at hs
      rw [← hs]
      have hsd : s.shuttingDown = true := by
        simp only [Bool.and_eq_true] at hc
        exact hc.1.1
      constructor
      · exact h.qSorted
      · exact h.qIdsLt
      · exact h.qIdsNodup
      · exact h.dIdsLt
      · exact h.qdDisj
      · exact h.dNodup
      · exact h.bNodup
      · exact h.bIdsLt
      · exact h.dBidLt
      · exact h.pagesCount
      · exact h.pagesLe
      · intro _
        exact hsd
    · rw [if_neg hc] at hs
      exact absurd hs (by simp)

theorem poolInv_run :
    ∀ (evs : List Event) (s s' : PoolState),
      PoolInv s → run s evs = some s' → PoolInv s' := by
  intro evs
  induction evs with
  | nil =>
    intro s s' h hr
    simp only [run, Option.some.injEq] at hr
    rw [← hr]
    exact h
  | cons e t ih =>
    intro s s' h hr
    unfold run at hr
    cases hstep : step s e with
    | none =>
      rw [hstep] at hr
      exact absurd hr (by simp)
    | some s1 =>
      rw [hstep] at hr
      exact ih s1 s' (poolInv_step h hstep) hr

theorem poolInv_poolInit (cfg : Config) : PoolInv (poolInit cfg) := by
  constructor <;> simp [poolInit, dispatchCount]

theorem reachable_poolInv {cfg : Config} {s : PoolState} (h : Reachable cfg s) :
    PoolInv s := by
  rcases h with ⟨evs, hr⟩
  exact poolInv_run evs _ s (poolInv_poolInit cfg) hr

/-! ## The shutdown drain -/

theorem drainInv_start {s0 : PoolState} (hsd : s0.shuttingDown = false)
    (hpl : s0.pendingLaunches = []) (hdone : s0.shutdownDone = false)
    {s1 : PoolState} (hs : step s0 Event.shutdownStart = some s1) :
    DrainInv s0 s1 := by
  simp only [step] at hs
  rw [if_neg (by simp [hsd])] at hs
  simp only [Option.some.injEq] at hs
  rw [← hs]
  refine ⟨rfl, hpl, rfl, ?_, ?_, ?_, ?_⟩
  · intro it hit
    exact List.mem_append_right _ (List.mem_map_of_mem _ hit)
  · intro b hb
    exact Or.inl (List.mem_map_of_mem _ hb)
  · intro b hb
    exact List.mem_map_of_mem _ hb
  · intro hd
    rw [hdone] at hd
    exact absurd hd (by simp)

theorem drainInv_step {s0 s s' : PoolState} {e : Event} (hD : DrainInv s0 s)
    (hs : step s e = some s') : DrainInv s0 s' := by
  obtain ⟨hsd, hpl, hq, hset, hold, hros, hdone⟩ := hD
  cases e with
  | enqueue isFunc ua p =>
    simp only [step, queueTaskWithRequirements, enqueueGuard, hsd, if_pos,
      Option.some.injEq] at hs
    rw [← hs]
    exact ⟨hsd, hpl, hq, hset, hold, hros, hdone⟩
  | launchSettles lid ok =>
    simp only [step, hpl, List.find?_nil] at hs
    exact Option.noConfusion hs
  | raceSettles tid k =>
    cases hfind : s.dispatches.find? (fun d => d.taskId == tid) with
    | none =>
      simp only [step, hfind] at hs
      exact Option.noConfusion hs
    | some d =>
      simp only [step, hfind, Option.some.injEq] at hs
      rw [← hs]
      have hgate : (settleRelease s tid k).shuttingDown = true := by
        unfold settleRelease
        rw [hfind]
        exact hsd
      rw [processQueue_gated hgate]
      unfold settleRelease
      rw [hfind]
      refine ⟨hsd, hpl, hq, ?_, hold, ?_, hdone⟩
      · intro it hit
        exact List.mem_append_left _ (hset it hit)
      · intro b' hb'
        rcases mem_updateBrowser hb' with ⟨b0, hb0, hbeq⟩
        have hid : b'.id = b0.id := by
          by_cases hc : b0.id = d.browserId
          · rw [if_pos hc] at hbeq
            rw [hbeq]
          · rw [if_neg hc] at hbeq
            rw [hbeq]
        rw [hid]
        exact hros b0 hb0
  | lateCompletes tid =>
    cases hfind : s.executions.find? (fun d => d.taskId == tid) with
    | none =>
      simp only [step, hfind] at hs
      exact Option.noConfusion hs
    | some d =>
      simp only [step, hfind] at hs
      by_cases hdp : (s.dispatches.find? (fun d => d.taskId == tid)).isSome = true
      · rw [if_pos hdp] at hs
        exact Option.noConfusion hs
      · rw [if_neg hdp] at hs
        simp only [Option.some.injEq] at hs
        rw [← hs]
        exact ⟨hsd, hpl, hq, hset, hold, hros, hdone⟩
  | drop bid =>
    cases hfind : s.browsers.find? (fun b => b.id == bid) with
    | none =>
      simp only [step, hfind] at hs
      exact Option.noConfusion hs
    | some b =>
      simp only [step, hfind] at hs
      by_cases hc : b.connected = true
      · rw [if_pos hc] at hs
        simp only [Option.some.injEq] at hs
        rw [← hs]
        refine ⟨hsd, hpl, hq, hset, hold, ?_, hdone⟩
        intro b' hb'
        rcases mem_updateBrowser hb' with ⟨b0, hb0, hbeq⟩
        have hid : b'.id = b0.id := by
          by_cases hcc : b0.id = bid
          · rw [if_pos hcc] at hbeq
            rw [hbeq]
          · rw [if_neg hcc] at hbeq
            rw [hbeq]
        rw [hid]
        exact hros b0 hb0
      · rw [if_neg hc] at hs
        exact Option.noConfusion hs
  | disconnectFires bid =>
    cases hfind : s.browsers.find? (fun b => b.id == bid) with
    | none =>
      simp only [step, hfind] at hs
      exact Option.noConfusion hs
    | some b =>
      simp only [step, hfind] at hs
      by_cases hc : b.connected = true
      · rw [if_pos hc] at hs
        exact Option.noConfusion hs
      · rw [if_neg hc] at hs
        simp only [Option.some.injEq] at hs
        rw [← hs, disconnectHandler_gated b hsd]
        refine ⟨hsd, hpl, hq, hset, hold, ?_, hdone⟩
        intro b' hb'
        have hb'' : b' ∈ s.browsers := (List.filter_sublist s.browsers).subset hb'
        exact hros b' hb''
  | killStart bid repl =>
    cases hfind : s.browsers.find? (fun b => b.id == bid) with
    | none =>
      simp only [step, hfind] at hs
      exact Option.noConfusion hs
    | some b =>
      simp only [step, hfind] at hs
      rw [if_neg (by simp [hsd])] at hs
      simp only [Option.some.injEq] at hs
      rw [← hs]
      refine ⟨hsd, hpl, hq, hset, hold, ?_, hdone⟩
      intro b' hb'
      have hb'' : b' ∈ s.browsers := (List.filter_sublist s.browsers).subset hb'
      exact hros b' hb''
  | ghostFires bid =>
    cases hfind : s.ghosts.find? (fun g => g.1 == bid) with
    | none =>
      simp only [step, hfind] at hs
      exact Option.noConfusion hs
    | some g =>
      simp only [step, hfind] at hs
      rw [if_pos hsd] at hs
      simp only [Option.some.injEq] at hs
      rw [← hs]
      exact ⟨hsd, hpl, hq, hset, hold, hros, hdone⟩
  | shutdownStart =>
    simp only [step] at hs
    rw [if_pos hsd] at hs
    exact Option.noConfusion hs
  | closeSettles bid ok =>
    simp only [step] at hs
    by_cases hc : bid ∈ s.pendingCloses
    · rw [if_pos hc] at hs
      simp only [Option.some.injEq] at hs
      rw [← hs]
      refine ⟨hsd, hpl, hq, hset, ?_, ?_, ?_⟩
      · intro b hb
        rcases hold b hb with hin | hlog
        · by_cases hbb : b.id = bid
          · exact Or.inr (List.mem_append_right _ (by simp [hbb]))
          · exact Or.inl ((List.mem_erase_of_ne hbb).mpr hin)
        · exact Or.inr (List.mem_append_left _ hlog)
      · intro b' hb'
        have hb'' : b' ∈ s.browsers ∧ (!(b'.id == bid)) = true :=
          List.mem_filter.mp hb'
        have hne : b'.id ≠ bid := by simpa using hb''.2
        exact (List.mem_erase_of_ne hne).mpr (hros b' hb''.1)
      · intro hd
        have hnil := hdone hd
        rw [hnil] at hc
        exact absurd hc (List.not_mem_nil _)
    · rw [if_neg hc] at hs
      exact Option.noConfusion hs
  | shutdownResolve =>
    simp only [step] at hs
    by_cases hc : (s.shuttingDown && s.pendingCloses.isEmpty && !s.shutdownDone) = true
    · rw [if_pos hc] at hs
      simp only [Option.some.injEq] at hs
      rw [← hs]
      refine ⟨hsd, hpl, hq, hset, hold, hros, ?_⟩
      intro _
      simp only [Bool.and_eq_true] at hc
      exact List.isEmpty_iff.mp hc.1.2
    · rw [if_neg hc] at hs
      exact Option.noConfusion hs

theorem drainInv_run {s0 : PoolState} :
    ∀ (evs : List Event) (s s' : PoolState),
      DrainInv s0 s → run s evs = some s' → DrainInv s0 s' := by
  intro evs
  induction evs with
  | nil =>
    intro s s' hD hr
    simp only [run, Option.some.injEq] at hr
    rw [← hr]
    exact hD
  | cons e t ih =>
    intro s s' hD hr
    unfold run at hr
    cases hstep : step s e with
    | none =>
      rw [hstep] at hr
      exact absurd hr (by simp)
    | some s1 =>
      rw [hstep] at hr
      exact ih s1 s' (drainInv_step hD hstep) hr

theorem shutdown_drain {s0 : PoolState} (hsd : s0.shuttingDown = false)
    (hpl : s0.pendingLaunches = []) (hdone0 : s0.shutdownDone = false)
    {evs : List Event} {s' : PoolState}
    (hr : run s0 (Event.shutdownStart :: evs) = some s')
    (hfin : s'.shutdownDone = true) :
    s'.browsers = [] ∧ s'.queue = [] ∧ s'.shuttingDown = true ∧
    (∀ it ∈ s0.queue, (it.id, Settlement.cancelled) ∈ s'.settled) ∧
    (∀ b ∈ s0.browsers, b.id ∈ s'.closedLog) := by
  unfold run at hr
  cases hstep : step s0 Event.shutdownStart with
  | none =>
    rw [hstep] at hr
    exact absurd hr (by simp)
  | some s1 =>
    rw [hstep] at hr
    have hD1 := drainInv_start hsd hpl hdone0 hstep
    have hD := drainInv_run evs s1 s' hD1 hr
    obtain ⟨hsd', hpl', hq', hset', hold', hros', hdone'⟩ := hD
    have hpc : s'.pendingCloses = [] := hdone' hfin
    have hbs : s'.browsers = [] := by
      rw [List.eq_nil_iff_forall_not_mem]
      intro b hb
      have hmem := hros' b hb
      rw [hpc] at hmem
      exact List.not_mem_nil _ hmem
    refine ⟨hbs, hq', hsd', hset', ?_⟩
    intro b hb
    rcases hold' b hb with hin | hlog
    · rw [hpc] at hin
      exact absurd hin (List.not_mem_nil _)
    · exact hlog

/-! ## The race settles the caller's promise exactly once -/

theorem runnerRun_frozen :
    ∀ (evs : List RunnerEvent) (st : RunnerState),
      st.raceSettled.isSome = true → st.taskCompleted = true →
      (runnerRun st evs).settlements = st.settlements := by
  intro evs
  induction evs with
  | nil =>
    intro st _ _
    rfl
  | cons e t ih =>
    intro st hrs htc
    have hstep1 : (runnerStep st e).settlements = st.settlements ∧
        (runnerStep st e).raceSettled.isSome = true ∧
        (runnerStep st e).taskCompleted = true := by
      cases e with
      | taskSettles ok =>
        simp only [runnerStep]
        by_cases hd : st.taskDone = true
        · rw [if_pos hd]
          exact ⟨rfl, hrs, htc⟩
        · rw [if_neg hd]
          cases hr : st.raceSettled with
          | none =>
            rw [hr] at hrs
            exact absurd hrs (by simp)
          | some o =>
            simp [hr, htc]
      | timerFires =>
        simp only [runnerStep]
        by_cases hf : st.timerFired = true
        · rw [if_pos hf]
          exact ⟨rfl, hrs, htc⟩
        · rw [if_neg hf]
          rw [if_pos htc]
          exact ⟨rfl, hrs, htc⟩
    show (runnerRun (runnerStep st e) t).settlements = st.settlements
    rw [ih (runnerStep st e) hstep1.2.1 hstep1.2.2, hstep1.1]

/-! ## Auxiliary facts for the claims -/

theorem find?_key_nodup {α β : Type} [DecidableEq β] (f : α → β) :
    ∀ (l : List α), (l.map f).Nodup → ∀ a ∈ l,
      l.find? (fun x => f x == f a) = some a := by
  intro l
  induction l with
  | nil =>
    intro _ a ha
    cases ha
  | cons b t ih =>
    intro hnd a ha
    rw [List.map_cons, List.nodup_cons] at hnd
    obtain ⟨hb, hnt⟩ := hnd
    by_cases hfb : f b = f a
    · have hab : a = b := by
        rcases List.mem_cons.mp ha with h | h
        · exact h
        · exfalso
          apply hb
          rw [hfb]
          exact List.mem_map_of_mem _ h
      rw [List.find?_cons_of_pos _ (by simp [hfb])]
      rw [hab]
    · have hat : a ∈ t := by
        rcases List.mem_cons.mp ha with h | h
        · exact absurd (by rw [h]) hfb
        · exact h
      rw [List.find?_cons_of_neg _ (by simp [hfb])]
      exact ih hnt a hat

theorem length_filter_partition {α : Type} (p : α → Bool) :
    ∀ (l : List α),
      (l.filter p).length + (l.filter (fun a => !(p a))).length = l.length := by
  intro l
  induction l with
  | nil => rfl
  | cons a t ih =>
    cases hp : p a
    · simp only [List.filter_cons, hp, Bool.not_false, if_true, if_false,
        List.length_cons, Bool.false_eq_true]
      omega
    · simp only [List.filter_cons, hp, Bool.not_true, if_true, if_false,
        List.length_cons, Bool.false_eq_true]
      omega

/-! ## The claims -/

/-- C1 (evidence of the code bug): the capacity invariant
`liveWorkersOfClass(c) <= cap(c)` does not hold for every reachable
state, because the under-cap check made before starting an asynchronous
launch is not re-validated when the launch completes.  With
`pool_size_default = 1`: the warm-up browser is dispatched a task, a
second task queues, the browser crashes; the `disconnected` handler
sees 0 < 1 and starts a replenishment launch, and the scheduler pass it
triggers also sees 0 < 1 (the replenishment is still in flight) and
starts an on-demand launch; both launches complete and register their
browsers unconditionally, leaving 2 live default browsers against a cap
of 1. -/
theorem c1_capacity_exceeded :
    (run (poolInit demoCfg)
      [Event.launchSettles 0 true, Event.enqueue true false 0,
       Event.enqueue true false 0, Event.drop 0, Event.disconnectFires 0,
       Event.launchSettles 1 true, Event.launchSettles 2 true]).map
      (fun s => (countType s.browsers BType.default, s.cfg.pool_size_default))
      = some (2, 1) := by
  decide

/-- C2: for every dispatched task the caller's promise settles exactly
once: the settlement list of the race equals the outcome of whichever
signal (task settlement or timer) arrives first, and is a singleton as
soon as any signal arrived - in particular, when the timer fires first
the caller is rejected with the timeout error and a late-arriving task
result changes nothing. -/
theorem c2_settles_exactly_once (evs : List RunnerEvent) :
    (runnerRun runnerInit evs).settlements = specFirstSignalWins evs ∧
    (evs ≠ [] → (runnerRun runnerInit evs).settlements.length = 1) := by
  have hmain : (runnerRun runnerInit evs).settlements = specFirstSignalWins evs := by
    cases evs with
    | nil => rfl
    | cons e t =>
      cases e with
      | taskSettles ok =>
        cases ok with
        | true =>
          show (runnerRun (runnerStep runnerInit (RunnerEvent.taskSettles true))
            t).settlements = _
          rw [runnerRun_frozen t
            (runnerStep runnerInit (RunnerEvent.taskSettles true)) (by rfl) (by rfl)]
          rfl
        | false =>
          show (runnerRun (runnerStep runnerInit (RunnerEvent.taskSettles false))
            t).settlements = _
          rw [runnerRun_frozen t
            (runnerStep runnerInit (RunnerEvent.taskSettles false)) (by rfl) (by rfl)]
          rfl
      | timerFires =>
        show (runnerRun (runnerStep runnerInit RunnerEvent.timerFires)
          t).settlements = _
        rw [runnerRun_frozen t
          (runnerStep runnerInit RunnerEvent.timerFires) (by rfl) (by rfl)]
        rfl
  refine ⟨hmain, ?_⟩
  intro hne
  rw [hmain]
  cases evs with
  | nil => exact absurd rfl hne
  | cons e t =>
    cases e with
    | taskSettles ok => rfl
    | timerFires => rfl

/-- C2 witness: the timer fires first, then the task execution finishes late - the
caller's promise was settled exactly once (with the timeout
rejection). -/
theorem c2_settles_exactly_once_witness :
    (runnerRun runnerInit
      [RunnerEvent.timerFires, RunnerEvent.taskSettles true]).settlements.length
      = 1 :=
  (c2_settles_exactly_once [RunnerEvent.timerFires, RunnerEvent.taskSettles true]).2
    (by simp)

/-- C3: on every settlement path (success, failure or timeout) of a
dispatched task in a reachable state, the step first runs the
`.finally` release - the assigned browser's busy flag becomes false and
its `pagesOpen` is decremented back to its pre-dispatch value - records
the caller's settlement, and then invokes the scheduler loop
(`processQueue`) on the released state. -/
theorem c3_release_and_retrigger {cfg : Config} {s : PoolState}
    (hreach : Reachable cfg s) {d : Dispatch} (hd : d ∈ s.dispatches)
    {b : BrowserSt} (hb : b ∈ s.browsers) (hbid : b.id = d.browserId)
    (k : RaceResult) :
    step s (Event.raceSettles d.taskId k)
      = some (processQueue (settleRelease s d.taskId k)) ∧
    (∀ b' ∈ (settleRelease s d.taskId k).browsers, b'.id = d.browserId →
      b'.busy = false ∧ b'.pagesOpen + 1 = b.pagesOpen) ∧
    (d.taskId, Settlement.raced k) ∈ (settleRelease s d.taskId k).settled := by
  have hInv := reachable_poolInv hreach
  have hfind : s.dispatches.find? (fun d' => d'.taskId == d.taskId) = some d :=
    find?_key_nodup (fun x => x.taskId) s.dispatches hInv.dNodup d hd
  have hsrb : (settleRelease s d.taskId k).browsers
      = updateBrowser s.browsers d.browserId
        (fun x => { x with pagesOpen := x.pagesOpen - 1, busy := false }) := by
    unfold settleRelease
    rw [hfind]
  have hsrs : (settleRelease s d.taskId k).settled
      = s.settled ++ [(d.taskId, Settlement.raced k)] := by
    unfold settleRelease
    rw [hfind]
  refine ⟨?_, ?_, ?_⟩
  · simp only [step, hfind]
  · intro b' hb' hbid'
    rw [hsrb] at hb'
    rcases mem_updateBrowser hb' with ⟨b0, hb0, hbeq⟩
    by_cases hc : b0.id = d.browserId
    · rw [if_pos hc] at hbeq
      have hb0b : b0 = b :=
        eq_of_mem_nodup_ids hInv.bNodup hb0 hb (hc.trans hbid.symm)
      constructor
      · rw [hbeq]
      · have hpg : b'.pagesOpen = b0.pagesOpen - 1 := by rw [hbeq]
        have hcount := hInv.pagesCount b hb
        have hpos : 1 ≤ dispatchCount s.dispatches b.id :=
          dispatchCount_pos hd hbid.symm
        rw [hpg, hb0b]
        omega
    · rw [if_neg hc] at hbeq
      have hbid0 : b'.id = b0.id := by rw [hbeq]
      rw [hbid0] at hbid'
      exact absurd hbid' hc
  · rw [hsrs]
    exact List.mem_append_right _ (by simp)

/-- C3 witness: in the concrete reachable state `sDemo` (task 0
dispatched to browser 0), a successful settlement records the caller's
resolution. -/
theorem c3_release_and_retrigger_witness :
    (0, Settlement.raced RaceResult.success)
      ∈ (settleRelease sDemo 0 RaceResult.success).settled :=
  (@c3_release_and_retrigger demoCfg sDemo ⟨demoTrace, by decide⟩
    (Dispatch.mk 0 0) (by decide)
    (BrowserSt.mk 0 BType.default true 1 true) (by decide) (by decide)
    RaceResult.success).2.2

/-- C4: in every reachable state, no browser is held by more
concurrently dispatched jobs than `maxPagesPerBrowser`: the number of
live dispatches whose race has not settled and that hold a given roster
browser never exceeds the configured per-browser limit (a job whose
dispatch ended by timeout is no longer dispatched, even though its
execution may keep running in the background - such states are
reachable here and the bound still holds). -/
theorem c4_dispatch_concurrency_bound {cfg : Config} {s : PoolState}
    (hreach : Reachable cfg s) :
    ∀ b ∈ s.browsers,
      dispatchCount s.dispatches b.id ≤ s.cfg.maxPagesPerBrowser := by
  have hInv := reachable_poolInv hreach
  intro b hb
  have h1 := hInv.pagesCount b hb
  have h2 := hInv.pagesLe b hb
  omega

/-- C4 witness: in `sDemo`, browser 0 is held by exactly its one
dispatch, within the limit. -/
theorem c4_dispatch_concurrency_bound_witness :
    dispatchCount sDemo.dispatches 0 ≤ sDemo.cfg.maxPagesPerBrowser :=
  @c4_dispatch_concurrency_bound demoCfg sDemo ⟨demoTrace, by decide⟩
    (BrowserSt.mk 0 BType.default true 1 true) (by decide)

/-- C5 counterexample: the claim "after shutdown() resolves ... the
stats snapshot reports zero total browsers" is false as stated: with
`pool_size_default = 1`, the warm-up browser crashes and a
replenishment launch is started; `shutdown()` then begins (empty
roster snapshot) and the still-pending launch completes before the
shutdown promise resolves, registering a browser that shutdown never
closes - the stats snapshot at resolution time reports one live
browser. -/
theorem c5_counterexample :
    (run (poolInit demoCfg)
      [Event.launchSettles 0 true, Event.drop 0, Event.disconnectFires 0,
       Event.shutdownStart, Event.launchSettles 1 true, Event.shutdownResolve]).map
      (fun s => ((getStats s).totalBrowsers, s.shutdownDone)) = some (1, true) := by
  decide

/-- C5 (amended): provided no browser launch is still pending when
`shutdown()` begins, then once the shutdown promise has resolved: the
task queue is empty and stats report zero queued tasks and zero total
browsers, every task still queued when shutdown began has been rejected
with the cancellation error, every live browser's close attempt has
settled, and any subsequent enqueue rejects with the shutting-down
error. -/
theorem c5_shutdown_drain {cfg : Config} {s0 : PoolState}
    (hreach : Reachable cfg s0) (hsd : s0.shuttingDown = false)
    (hpl : s0.pendingLaunches = []) {evs : List Event} {s' : PoolState}
    (hr : run s0 (Event.shutdownStart :: evs) = some s')
    (hfin : s'.shutdownDone = true) :
    (getStats s').queuedTasks = 0 ∧ (getStats s').totalBrowsers = 0 ∧
    (∀ it ∈ s0.queue, (it.id, Settlement.cancelled) ∈ s'.settled) ∧
    (∀ b ∈ s0.browsers, b.id ∈ s'.closedLog) ∧
    (∀ (isFunc ua : Bool) (p : Int), queueTaskWithRequirements s' isFunc ua p
      = Except.error EnqueueError.shuttingDown) := by
  have hInv := reachable_poolInv hreach
  have hdone0 : s0.shutdownDone = false := by
    cases hdd : s0.shutdownDone
    · rfl
    · have hgate := hInv.sdImp hdd
      rw [hgate] at hsd
      exact absurd hsd (by simp)
  obtain ⟨hbs, hq, hsd', hset, hclose⟩ := shutdown_drain hsd hpl hdone0 hr hfin
  refine ⟨?_, ?_, hset, hclose, ?_⟩
  · show s'.queue.length = 0
    rw [hq]
    rfl
  · show s'.browsers.length = 0
    rw [hbs]
    rfl
  · intro isFunc ua p
    simp [queueTaskWithRequirements, enqueueGuard, hsd']

/-- C5 witness: four tasks queued under zero caps, shutdown begins and
resolves; the drained pool reports zero browsers. -/
theorem c5_shutdown_drain_witness : (getStats sQueueShut).totalBrowsers = 0 :=
  (@c5_shutdown_drain zeroCfg sQueueDemo ⟨queueTrace, by decide⟩ rfl rfl
    [Event.shutdownResolve] sQueueShut (by decide) rfl).2.1

/-- C6: the facade's enqueue returns an already-rejected promise
without touching the queue - the state is unchanged, so queue length
before and after are equal - whenever the pool is shutting down, the
task is not a function, or adblock is demanded while no extension path
is configured or `pool_size_adblock` is zero. -/
theorem c6_enqueue_guard_rejects (s : PoolState) (isFunc ua : Bool) (p : Int)
    (h : s.shuttingDown = true ∨ isFunc = false ∨
      (ua = true ∧ (s.cfg.hasAdblockPath = false ∨ s.cfg.pool_size_adblock = 0))) :
    (∃ e, queueTaskWithRequirements s isFunc ua p = Except.error e) ∧
    step s (Event.enqueue isFunc ua p) = some s := by
  have hg : ∃ e, enqueueGuard s isFunc ua = some e := by
    unfold enqueueGuard
    split
    · exact ⟨_, rfl⟩
    · split
      · exact ⟨_, rfl⟩
      · split
        · exact ⟨_, rfl⟩
        · split
          · exact ⟨_, rfl⟩
          · exfalso
            rename_i h1 h2 h3 h4
            rcases h with hc | hc | ⟨hc1, hc2⟩
            · exact h1 hc
            · exact h2 (by simp [hc])
            · rcases hc2 with hc2 | hc2
              · exact h3 (by simp [hc1, hc2])
              · exact h4 (by simp [hc1, hc2])
  obtain ⟨e, hge⟩ := hg
  constructor
  · exact ⟨e, by simp [queueTaskWithRequirements, hge]⟩
  · simp only [step, queueTaskWithRequirements, hge]

/-- C6 witness: an adblock-requiring task enqueued on a pool with no
extension path is rejected with the state unchanged. -/
theorem c6_enqueue_guard_rejects_witness :
    step (poolInit demoCfg) (Event.enqueue true true 5)
      = some (poolInit demoCfg) :=
  (c6_enqueue_guard_rejects (poolInit demoCfg) true true 5
    (Or.inr (Or.inr ⟨rfl, Or.inl rfl⟩))).2

/-- C7: in every reachable state the pending queue is ordered by
descending priority with FIFO ties (strictly: each earlier entry either
has strictly higher priority than each later one, or equal priority and
a smaller - earlier-assigned - id), so the head inspected by a
scheduler pass is the highest-priority, earliest-enqueued task. -/
theorem c7_priority_fifo_order {cfg : Config} {s : PoolState}
    (hreach : Reachable cfg s) :
    s.queue.Pairwise qLt ∧
    (∀ it rest, s.queue = it :: rest → ∀ y ∈ rest,
      y.priority < it.priority ∨ (it.priority = y.priority ∧ it.id < y.id)) := by
  have hInv := reachable_poolInv hreach
  refine ⟨hInv.qSorted, ?_⟩
  intro it rest hq y hy
  have hs := hInv.qSorted
  rw [hq] at hs
  exact List.rel_of_pairwise_cons hs hy

/-- C7 witness: priorities 1, 5, 5, 3 enqueued in that order end up
ordered 5, 5, 3, 1 with the two 5s in enqueue order. -/
theorem c7_priority_fifo_order_witness : sQueueDemo.queue.Pairwise qLt :=
  (@c7_priority_fifo_order zeroCfg sQueueDemo ⟨queueTrace, by decide⟩).1

/-- C8 counterexample: the claim that after a warm-up failure "no
launched browser remains alive" is false as stated: with two default
warm-up launches, the first fails (construction tears down and rejects)
while the second is still pending; it completes later and registers a
live browser that nothing ever closes. -/
theorem c8_counterexample :
    (run (poolInit (Config.mk 2 0 false 1))
      [Event.launchSettles 0 false, Event.shutdownStart, Event.shutdownResolve,
       Event.launchSettles 1 true]).map
      (fun s => ((getStats s).totalBrowsers, s.launchFailures, s.shutdownDone))
      = some (1, 1, true) := by
  decide

/-- C8 (amended): when a warm-up launch has failed, the construction
path rejects (no pool object is handed out) and runs the teardown
shutdown; provided every warm-up launch has settled by then, once the
teardown has resolved no browser remains in the roster and every
browser registered before the teardown has had its close attempt
settle. -/
theorem c8_warmup_failure_teardown {cfg : Config} {evs1 : List Event}
    {s0 : PoolState} (h0 : run (poolInit cfg) evs1 = some s0)
    (_hfail : 0 < s0.launchFailures) (hsd : s0.shuttingDown = false)
    (hpl : s0.pendingLaunches = []) {evs2 : List Event} {s' : PoolState}
    (hr : run s0 (Event.shutdownStart :: evs2) = some s')
    (hfin : s'.shutdownDone = true) :
    s'.browsers = [] ∧ (getStats s').totalBrowsers = 0 ∧
    (∀ b ∈ s0.browsers, b.id ∈ s'.closedLog) := by
  have hInv := reachable_poolInv ⟨evs1, h0⟩
  have hdone0 : s0.shutdownDone = false := by
    cases hdd : s0.shutdownDone
    · rfl
    · have hgate := hInv.sdImp hdd
      rw [hgate] at hsd
      exact absurd hsd (by simp)
  obtain ⟨hbs, _, _, _, hclose⟩ := shutdown_drain hsd hpl hdone0 hr hfin
  refine ⟨hbs, ?_, hclose⟩
  show s'.browsers.length = 0
  rw [hbs]
  rfl

/-- C8 witness: the single warm-up launch fails, teardown runs and
resolves, and no browser remains. -/
theorem c8_warmup_failure_teardown_witness :
    (getStats sWarmFailShut).totalBrowsers = 0 :=
  (@c8_warmup_failure_teardown demoCfg [Event.launchSettles 0 false] sWarmFail
    (by decide) (by decide) rfl rfl [Event.shutdownResolve] sWarmFailShut
    (by decide) rfl).2.1

/-- C9: whenever `_findSuitableBrowser` selects a browser it satisfies
the full eligibility predicate - not busy, below the page limit, of the
required type, connected (so a busy browser is never selected for a
second concurrent dispatch until freed) - and when the scheduler pass
dispatches the queue head to it, the busy flag is set within the same
synchronous pass, with no suspension point in between. -/
theorem c9_eligible_selection (s : PoolState) (ua : Bool) (b : BrowserSt)
    (hfind : findSuitableBrowser s ua = some b) :
    b.busy = false ∧ b.pagesOpen < s.cfg.maxPagesPerBrowser ∧
    b.type = requiredBType ua ∧ b.connected = true ∧
    (∀ it rest, s.shuttingDown = false → s.queue = it :: rest →
      it.useAdblock = ua →
      processQueue s = dispatchTo s it b ∧
      ∀ b' ∈ (dispatchTo s it b).browsers, b'.id = b.id → b'.busy = true) := by
  have hpred := List.find?_some hfind
  simp only [Bool.and_eq_true, Bool.not_eq_true', decide_eq_true_eq,
    beq_iff_eq] at hpred
  obtain ⟨⟨⟨hbusy, hpage⟩, htype⟩, hconn⟩ := hpred
  refine ⟨hbusy, hpage, htype, hconn, ?_⟩
  intro it rest hsd hq hua
  have hfind' : findSuitableBrowser s it.useAdblock = some b := by
    rw [hua]
    exact hfind
  refine ⟨processQueue_dispatch hsd hq hfind', ?_⟩
  intro b' hb' hbid
  have hb'' : b' ∈ updateBrowser s.browsers b.id
      (fun x => { x with busy := true, pagesOpen := x.pagesOpen + 1 }) := hb'
  rcases mem_updateBrowser hb'' with ⟨b0, hb0, hbeq⟩
  by_cases hc : b0.id = b.id
  · rw [if_pos hc] at hbeq
    rw [hbeq]
  · rw [if_neg hc] at hbeq
    have hbid0 : b'.id = b0.id := by rw [hbeq]
    rw [hbid0] at hbid
    exact absurd hbid hc

/-- C9 witness: with one queued default task and the idle browser
`bIdle`, the scheduler pass is exactly the dispatch to `bIdle`. -/
theorem c9_eligible_selection_witness :
    processQueue sIdleQ = dispatchTo sIdleQ (QItem.mk 0 0 false) bIdle :=
  ((c9_eligible_selection sIdleQ false bIdle (by decide)).2.2.2.2
    (QItem.mk 0 0 false) [] rfl rfl rfl).1

/-- C10: every stats snapshot is internally consistent, in every state
of the pool: busy plus idle browsers equals total browsers, default
plus adblock browsers equals total browsers (each roster entry's class
is one of the two), and all counts are natural numbers, hence
non-negative. -/
theorem c10_stats_consistency (s : PoolState) :
    (getStats s).busyBrowsers + (getStats s).idleBrowsers
      = (getStats s).totalBrowsers ∧
    (getStats s).defaultBrowsers + (getStats s).adblockBrowsers
      = (getStats s).totalBrowsers ∧
    0 ≤ (getStats s).queuedTasks ∧ 0 ≤ (getStats s).busyBrowsers := by
  refine ⟨?_, ?_, Nat.zero_le _, Nat.zero_le _⟩
  · exact length_filter_partition (fun b => b.busy) s.browsers
  · have hcongr : s.browsers.filter (fun b => b.type == BType.adblock)
        = s.browsers.filter (fun b => !(b.type == BType.default)) := by
      refine List.filter_congr ?_
      intro b _
      cases b.type <;> rfl
    show (s.browsers.filter (fun b => b.type == BType.default)).length
        + (s.browsers.filter (fun b => b.type == BType.adblock)).length
        = s.browsers.length
    rw [hcongr]
    exact length_filter_partition (fun b => b.type == BType.default) s.browsers
